import Mathlib

/-!
Verification development for the shepherd-mvp backend core
(`backend/app/main.py` and `backend/app/ws_manager.py`).

The Python dictionaries (`active_runs`, `completed_runs`, `process_pids`,
`_conns`, `_buffers`, `_last_activity`) are embedded as association lists
over `String` keys; `set` assigns a key (replacing an existing binding, as
dict assignment does) and `erase` removes a key (as `del` / `pop` do).
Wall-clock readings of `datetime.utcnow()` are passed in as explicit `Nat`
parameters named `now`.  The messages actually written to each WebSocket,
and the socket closes, are recorded in an observation log (`traces`), one
event list per socket id, so that delivery-ordering claims can be stated.
-/

namespace Shepherd

/-! ## Association-list helpers (the embedding of Python `dict`) -/

namespace Assoc

def get (k : String) : List (String × α) → Option α
  | [] => none
  | (k', v) :: rest => if k = k' then some v else get k rest

def set (k : String) (v : α) : List (String × α) → List (String × α)
  | [] => [(k, v)]
  | (k', v') :: rest => if k = k' then (k, v) :: rest else (k', v') :: set k v rest

def erase (k : String) : List (String × α) → List (String × α)
  | [] => []
  | (k', v') :: rest => if k = k' then erase k rest else (k', v') :: erase k rest

/-- Lookup with a default value (the embedding of `defaultdict` access). -/
def getD (k : String) (l : List (String × α)) (d : α) : α :=
  (get k l).getD d

theorem get_set_self (k : String) (v : α) (l : List (String × α)) :
    get k (set k v l) = some v := by
  induction l with
  | nil => simp [set, get]
  | cons p rest ih =>
    by_cases h : k = p.1
    · simp [set, h, get]
    · simp [set, h, get, ih]

theorem get_set_ne (h : k ≠ k') (v : α) (l : List (String × α)) :
    get k (set k' v l) = get k l := by
  induction l with
  | nil => simp [set, get, h]
  | cons p rest ih =>
    by_cases h' : k' = p.1
    · subst h'
      simp [set, get, h, ih]
    · by_cases h'' : k = p.1
      · simp [set, h', get, h'']
      · simp [set, h', get, h'', ih]

theorem get_erase_self (k : String) (l : List (String × α)) :
    get k (erase k l) = none := by
  induction l with
  | nil => simp [erase, get]
  | cons p rest ih =>
    by_cases h : k = p.1
    · subst h
      simpa [erase] using ih
    · simp [erase, h, get, ih]

theorem get_erase_ne (h : k ≠ k') (l : List (String × α)) :
    get k (erase k' l) = get k l := by
  induction l with
  | nil => simp [erase]
  | cons p rest ih =>
    by_cases h' : k' = p.1
    · subst h'
      simp [erase, get, h, ih]
    · by_cases h'' : k = p.1
      · simp [erase, h', get, h'']
      · simp [erase, h', get, h'', ih]

theorem length_set_le (k : String) (v : α) (l : List (String × α)) :
    (set k v l).length ≤ l.length + 1 := by
  induction l with
  | nil => simp [set]
  | cons p rest ih =>
    by_cases h : k = p.1
    · simp [set, h]
    · simp only [set, h, if_false, List.length_cons]
      omega

theorem length_erase_le (k : String) (l : List (String × α)) :
    (erase k l).length ≤ l.length := by
  induction l with
  | nil => simp [erase]
  | cons p rest ih =>
    by_cases h : k = p.1
    · subst h
      simp only [erase, if_pos rfl, List.length_cons, if_true, eq_self_iff_true]
      omega
    · simp only [erase, h, if_false, List.length_cons]
      omega

end Assoc

/-! ## Run registry (`RunManager` in `backend/app/main.py`) -/

/-- The `RunStatus` string enum of `main.py`. -/
inductive RunStatus where
  | running
  | completed
  | failed
  | cancelled
deriving DecidableEq, Repr

/-- The string value of a `RunStatus` member. -/
def RunStatus.toString : RunStatus → String
  | .running => "running"
  | .completed => "completed"
  | .failed => "failed"
  | .cancelled => "cancelled"

/-- One run record, as stored in `active_runs` / `completed_runs`.
The wall-clock fields (`started_at`, `completed_at`, `cancelled_at`) are
elided: no claim mentions them, and they are opaque strings taken from
`datetime.utcnow()`.  `job_data` is kept as an opaque `Nat` payload. -/
structure RunEntry where
  status : RunStatus
  job_data : Nat
deriving DecidableEq, Repr

/-- The state of `RunManager`: the concurrency ceiling and the three
dictionaries (`active_runs`, `completed_runs`, `process_pids`). -/
structure RunManager where
  max_concurrent : Nat
  active_runs : List (String × RunEntry)
  completed_runs : List (String × RunEntry)
  process_pids : List (String × Nat)
deriving DecidableEq, Repr

namespace RunManager

/-- `RunManager.__init__` with the `MAX_CONCURRENT_RUNS` environment value
passed in explicitly (the pid-file recovery touches the filesystem only). -/
def init (c : Nat) : RunManager :=
  { max_concurrent := c, active_runs := [], completed_runs := [], process_pids := [] }

/-- Result of `add_run`: the `{"status": "started"}` or
`{"status": "at_capacity"}` dictionary. -/
inductive AddResult where
  | started (run_id : String)
  | at_capacity
deriving DecidableEq, Repr

/-- `RunManager.add_run`: insert the run as `RUNNING` when the active count
is strictly below `max_concurrent`, otherwise report `at_capacity` and leave
the state unchanged. -/
def add_run (rm : RunManager) (run_id : String) (job_data : Nat) :
    RunManager × AddResult :=
  if rm.active_runs.length < rm.max_concurrent then
    ({ rm with active_runs :=
        Assoc.set run_id { status := .running, job_data := job_data } rm.active_runs },
     .started run_id)
  else
    (rm, .at_capacity)

/-- `RunManager.complete_run`: if the run is active, pop it and file it under
`completed_runs` with status `COMPLETED` or `FAILED`; otherwise do nothing. -/
def complete_run (rm : RunManager) (run_id : String) (success : Bool) : RunManager :=
  match Assoc.get run_id rm.active_runs with
  | some rd =>
      { rm with
        active_runs := Assoc.erase run_id rm.active_runs,
        completed_runs :=
          Assoc.set run_id
            { rd with status := if success then .completed else .failed }
            rm.completed_runs }
  | none => rm

/-- `RunManager.cancel_run`: kill and unregister a registered pid first
(the OS `kill` itself is external and stateless here), then, if the run is
active, move it to `completed_runs` with status `CANCELLED` and return
`true`; otherwise return `false`. -/
def cancel_run (rm : RunManager) (run_id : String) : RunManager × Bool :=
  let rm :=
    if (Assoc.get run_id rm.process_pids).isSome then
      { rm with process_pids := Assoc.erase run_id rm.process_pids }
    else rm
  match Assoc.get run_id rm.active_runs with
  | some rd =>
      ({ rm with
         active_runs := Assoc.erase run_id rm.active_runs,
         completed_runs :=
           Assoc.set run_id { rd with status := .cancelled } rm.completed_runs },
       true)
  | none => (rm, false)

/-- `RunManager.register_process` (the write-through to the pid file is
filesystem-only). -/
def register_process (rm : RunManager) (run_id : String) (pid : Nat) : RunManager :=
  { rm with process_pids := Assoc.set run_id pid rm.process_pids }

/-- `RunManager.unregister_process`. -/
def unregister_process (rm : RunManager) (run_id : String) : RunManager :=
  if (Assoc.get run_id rm.process_pids).isSome then
    { rm with process_pids := Assoc.erase run_id rm.process_pids }
  else rm

/-- `RunManager.get_run_status`, reduced to the status string it reports. -/
def get_run_status (rm : RunManager) (run_id : String) : String :=
  if (Assoc.get run_id rm.active_runs).isSome then "running"
  else
    match Assoc.get run_id rm.completed_runs with
    | some rd => rd.status.toString
    | none => "not_found"

end RunManager

/-- One registry operation, for reasoning about arbitrary call sequences. -/
inductive RMOp where
  | add (run_id : String) (job_data : Nat)
  | complete (run_id : String) (success : Bool)
  | cancel (run_id : String)
  | registerP (run_id : String) (pid : Nat)
  | unregisterP (run_id : String)
deriving DecidableEq, Repr

/-- Apply one registry operation (discarding the returned value). -/
def applyOp (rm : RunManager) : RMOp → RunManager
  | .add rid jd => (rm.add_run rid jd).1
  | .complete rid b => rm.complete_run rid b
  | .cancel rid => (rm.cancel_run rid).1
  | .registerP rid pid => rm.register_process rid pid
  | .unregisterP rid => rm.unregister_process rid

/-- Apply a sequence of registry operations in order. -/
def applyOps (rm : RunManager) (ops : List RMOp) : RunManager :=
  ops.foldl applyOp rm

/-- An `add_run` call is fresh when its run id is not already filed under
`completed_runs` (run ids are unique per the data model). -/
def freshOp (rm : RunManager) : RMOp → Bool
  | .add rid _ => (Assoc.get rid rm.completed_runs).isNone
  | _ => true

/-- A call sequence is safe when every `add_run` in it is fresh at the state
where it executes. -/
def safeSeq : RunManager → List RMOp → Bool
  | _, [] => true
  | rm, op :: rest => freshOp rm op && safeSeq (applyOp rm op) rest

theorem Assoc.erase_of_get_none {α : Type} {k : String} {l : List (String × α)}
    (h : Assoc.get k l = none) : Assoc.erase k l = l := by
  induction l with
  | nil => simp [Assoc.erase]
  | cons p rest ih =>
    by_cases h' : k = p.1
    · simp [Assoc.get, h'] at h
    · simp only [Assoc.get, h', if_false] at h
      simp [Assoc.erase, h', ih h]

theorem applyOp_max (rm : RunManager) (op : RMOp) :
    (applyOp rm op).max_concurrent = rm.max_concurrent := by
  cases op with
  | add rid jd =>
    simp only [applyOp, RunManager.add_run]
    split <;> rfl
  | complete rid b =>
    simp only [applyOp, RunManager.complete_run]
    split <;> rfl
  | cancel rid =>
    by_cases hp : (Assoc.get rid rm.process_pids).isSome = true
    · simp only [applyOp, RunManager.cancel_run, if_pos hp]
      split <;> rfl
    · simp only [applyOp, RunManager.cancel_run, if_neg hp]
      split <;> rfl
  | registerP rid pid => rfl
  | unregisterP rid =>
    simp only [applyOp, RunManager.unregister_process]
    split <;> rfl

theorem applyOp_active_le (rm : RunManager) (op : RMOp)
    (h : rm.active_runs.length ≤ rm.max_concurrent) :
    (applyOp rm op).active_runs.length ≤ rm.max_concurrent := by
  cases op with
  | add rid jd =>
    simp only [applyOp, RunManager.add_run]
    split
    · next hlt =>
      have := Assoc.length_set_le rid
        (⟨RunStatus.running, jd⟩ : RunEntry) rm.active_runs
      simp only []
      omega
    · exact h
  | complete rid b =>
    simp only [applyOp, RunManager.complete_run]
    split
    · next rd _ =>
      have := Assoc.length_erase_le rid rm.active_runs
      simp only []
      omega
    · exact h
  | cancel rid =>
    by_cases hp : (Assoc.get rid rm.process_pids).isSome = true
    · simp only [applyOp, RunManager.cancel_run, if_pos hp]
      split
      · next rd _ =>
        have := Assoc.length_erase_le rid rm.active_runs
        simp only []
        omega
      · exact h
    · simp only [applyOp, RunManager.cancel_run, if_neg hp]
      split
      · next rd _ =>
        have := Assoc.length_erase_le rid rm.active_runs
        simp only []
        omega
      · exact h
  | registerP rid pid => exact h
  | unregisterP rid =>
    simp only [applyOp, RunManager.unregister_process]
    split <;> exact h

theorem applyOps_active_le (rm : RunManager) (ops : List RMOp)
    (h : rm.active_runs.length ≤ rm.max_concurrent) :
    (applyOps rm ops).active_runs.length ≤ (applyOps rm ops).max_concurrent := by
  induction ops generalizing rm with
  | nil => exact h
  | cons op rest ih =>
    exact ih (applyOp rm op)
      ((applyOp_max rm op).symm ▸ applyOp_active_le rm op h)

theorem applyOps_max (rm : RunManager) (ops : List RMOp) :
    (applyOps rm ops).max_concurrent = rm.max_concurrent := by
  induction ops generalizing rm with
  | nil => rfl
  | cons op rest ih => simpa [applyOps, applyOp_max] using ih (applyOp rm op)

theorem add_run_of_lt (rm : RunManager) (rid : String) (jd : Nat)
    (h : rm.active_runs.length < rm.max_concurrent) :
    rm.add_run rid jd =
      ({ rm with active_runs :=
          Assoc.set rid { status := .running, job_data := jd } rm.active_runs },
       .started rid) := by
  simp [RunManager.add_run, h]

theorem add_run_of_ge (rm : RunManager) (rid : String) (jd : Nat)
    (h : ¬ rm.active_runs.length < rm.max_concurrent) :
    rm.add_run rid jd = (rm, .at_capacity) := by
  simp [RunManager.add_run, h]

theorem complete_run_of_some (rm : RunManager) (rid : String) (b : Bool)
    (rd : RunEntry) (heq : Assoc.get rid rm.active_runs = some rd) :
    rm.complete_run rid b =
      { rm with
        active_runs := Assoc.erase rid rm.active_runs,
        completed_runs :=
          Assoc.set rid { rd with status := if b then .completed else .failed }
            rm.completed_runs } := by
  simp [RunManager.complete_run, heq]

theorem complete_run_of_none (rm : RunManager) (rid : String) (b : Bool)
    (heq : Assoc.get rid rm.active_runs = none) :
    rm.complete_run rid b = rm := by
  simp [RunManager.complete_run, heq]

theorem isSome_eq_false_iff {α : Type} {o : Option α} :
    o.isSome = false ↔ o = none := by
  cases o <;> simp

theorem cancel_run_of_some (rm : RunManager) (rid : String)
    (rd : RunEntry) (heq : Assoc.get rid rm.active_runs = some rd) :
    rm.cancel_run rid =
      ({ rm with
         active_runs := Assoc.erase rid rm.active_runs,
         completed_runs :=
           Assoc.set rid { rd with status := .cancelled } rm.completed_runs,
         process_pids := Assoc.erase rid rm.process_pids }, true) := by
  by_cases hp : (Assoc.get rid rm.process_pids).isSome = true
  · simp [RunManager.cancel_run, hp, heq]
  · have hnone : Assoc.get rid rm.process_pids = none :=
      isSome_eq_false_iff.mp (Bool.not_eq_true _ ▸ eq_false_of_ne_true hp)
    simp [RunManager.cancel_run, hp, heq, Assoc.erase_of_get_none hnone]

theorem cancel_run_of_none (rm : RunManager) (rid : String)
    (heq : Assoc.get rid rm.active_runs = none) :
    rm.cancel_run rid =
      ({ rm with process_pids := Assoc.erase rid rm.process_pids }, false) := by
  by_cases hp : (Assoc.get rid rm.process_pids).isSome = true
  · simp [RunManager.cancel_run, hp, heq]
  · have hnone : Assoc.get rid rm.process_pids = none :=
      isSome_eq_false_iff.mp (Bool.not_eq_true _ ▸ eq_false_of_ne_true hp)
    simp [RunManager.cancel_run, hp, heq, Assoc.erase_of_get_none hnone]

theorem cancel_run_snd (rm : RunManager) (rid : String) :
    (rm.cancel_run rid).2 = (Assoc.get rid rm.active_runs).isSome := by
  cases heq : Assoc.get rid rm.active_runs with
  | some rd => simp [cancel_run_of_some rm rid rd heq]
  | none => simp [cancel_run_of_none rm rid heq]

/-- Exclusivity: no run id is filed under both `active_runs` and
`completed_runs`. -/
def Excl (rm : RunManager) : Prop :=
  ∀ rid, ¬((Assoc.get rid rm.active_runs).isSome = true ∧
           (Assoc.get rid rm.completed_runs).isSome = true)

/-- A run id has been created: it is in one of the two collections. -/
def Created (rm : RunManager) (rid : String) : Prop :=
  (Assoc.get rid rm.active_runs).isSome = true ∨
  (Assoc.get rid rm.completed_runs).isSome = true

theorem excl_step (rm : RunManager) (op : RMOp) (hx : Excl rm)
    (hf : freshOp rm op = true) : Excl (applyOp rm op) := by
  cases op with
  | add rid' jd =>
    by_cases hc : rm.active_runs.length < rm.max_concurrent
    · simp only [applyOp, add_run_of_lt rm rid' jd hc]
      intro rid ⟨h1, h2⟩
      by_cases h : rid = rid'
      · subst h
        simp only [freshOp, Option.isNone_iff_eq_none] at hf
        simp [hf] at h2
      · exact hx rid ⟨by rwa [Assoc.get_set_ne h] at h1, h2⟩
    · simpa only [applyOp, add_run_of_ge rm rid' jd hc] using hx
  | complete rid' b =>
    cases heq : Assoc.get rid' rm.active_runs with
    | some rd =>
      simp only [applyOp, complete_run_of_some rm rid' b rd heq]
      intro rid ⟨h1, h2⟩
      by_cases h : rid = rid'
      · subst h
        simp [Assoc.get_erase_self] at h1
      · exact hx rid ⟨by rwa [Assoc.get_erase_ne h] at h1,
                      by rwa [Assoc.get_set_ne h] at h2⟩
    | none => simpa only [applyOp, complete_run_of_none rm rid' b heq] using hx
  | cancel rid' =>
    cases heq : Assoc.get rid' rm.active_runs with
    | some rd =>
      simp only [applyOp, cancel_run_of_some rm rid' rd heq]
      intro rid ⟨h1, h2⟩
      by_cases h : rid = rid'
      · subst h
        simp [Assoc.get_erase_self] at h1
      · exact hx rid ⟨by rwa [Assoc.get_erase_ne h] at h1,
                      by rwa [Assoc.get_set_ne h] at h2⟩
    | none => simpa only [applyOp, cancel_run_of_none rm rid' heq] using hx
  | registerP rid' pid => exact hx
  | unregisterP rid' =>
    simp only [applyOp, RunManager.unregister_process]
    split <;> exact hx

theorem safe_excl (ops : List RMOp) (rm : RunManager) (hx : Excl rm)
    (hs : safeSeq rm ops = true) : Excl (applyOps rm ops) := by
  induction ops generalizing rm with
  | nil => exact hx
  | cons op rest ih =>
    simp only [safeSeq, Bool.and_eq_true] at hs
    exact ih (applyOp rm op) (excl_step rm op hx hs.1) hs.2

theorem created_step (rm : RunManager) (op : RMOp) (rid : String)
    (h : Created rm rid) : Created (applyOp rm op) rid := by
  cases op with
  | add rid' jd =>
    by_cases hc : rm.active_runs.length < rm.max_concurrent
    · simp only [applyOp, add_run_of_lt rm rid' jd hc]
      by_cases he : rid = rid'
      · subst he
        exact Or.inl (by simp [Assoc.get_set_self])
      · cases h with
        | inl h1 => exact Or.inl (by simpa [Assoc.get_set_ne he] using h1)
        | inr h2 => exact Or.inr h2
    · simpa only [applyOp, add_run_of_ge rm rid' jd hc] using h
  | complete rid' b =>
    cases heq : Assoc.get rid' rm.active_runs with
    | some rd =>
      simp only [applyOp, complete_run_of_some rm rid' b rd heq]
      by_cases he : rid = rid'
      · subst he
        exact Or.inr (by simp [Assoc.get_set_self])
      · cases h with
        | inl h1 => exact Or.inl (by simpa [Assoc.get_erase_ne he] using h1)
        | inr h2 => exact Or.inr (by simpa [Assoc.get_set_ne he] using h2)
    | none => simpa only [applyOp, complete_run_of_none rm rid' b heq] using h
  | cancel rid' =>
    cases heq : Assoc.get rid' rm.active_runs with
    | some rd =>
      simp only [applyOp, cancel_run_of_some rm rid' rd heq]
      by_cases he : rid = rid'
      · subst he
        exact Or.inr (by simp [Assoc.get_set_self])
      · cases h with
        | inl h1 => exact Or.inl (by simpa [Assoc.get_erase_ne he] using h1)
        | inr h2 => exact Or.inr (by simpa [Assoc.get_set_ne he] using h2)
    | none => simpa only [applyOp, cancel_run_of_none rm rid' heq] using h
  | registerP rid' pid => exact h
  | unregisterP rid' =>
    simp only [applyOp, RunManager.unregister_process]
    split <;> exact h

/-- One call racing for a run's terminal status: `complete_run` (with its
success flag) or `cancel_run`. -/
inductive RaceOp where
  | complete (success : Bool)
  | cancel
deriving DecidableEq, Repr

/-- Apply one racing call to the fixed run id. -/
def applyRace (rid : String) (rm : RunManager) : RaceOp → RunManager
  | .complete b => rm.complete_run rid b
  | .cancel => (rm.cancel_run rid).1

/-- The terminal status a racing call records when it wins. -/
def raceStatus : RaceOp → RunStatus
  | .complete b => if b then .completed else .failed
  | .cancel => .cancelled

theorem race_stable (rid : String) (rm : RunManager) (op : RaceOp)
    (h1 : Assoc.get rid rm.active_runs = none)
    (h2 : Assoc.get rid rm.completed_runs = some e) :
    Assoc.get rid (applyRace rid rm op).active_runs = none ∧
    Assoc.get rid (applyRace rid rm op).completed_runs = some e := by
  cases op with
  | complete b => simp only [applyRace, complete_run_of_none rm rid b h1]; exact ⟨h1, h2⟩
  | cancel => simp only [applyRace, cancel_run_of_none rm rid h1]; exact ⟨h1, h2⟩

theorem race_stable_fold (rid : String) (ops : List RaceOp) (rm : RunManager)
    (h1 : Assoc.get rid rm.active_runs = none)
    (h2 : Assoc.get rid rm.completed_runs = some e) :
    Assoc.get rid (ops.foldl (applyRace rid) rm).active_runs = none ∧
    Assoc.get rid (ops.foldl (applyRace rid) rm).completed_runs = some e := by
  induction ops generalizing rm with
  | nil => exact ⟨h1, h2⟩
  | cons op rest ih =>
    have := race_stable rid rm op h1 h2
    exact ih (applyRace rid rm op) this.1 this.2

theorem race_first (rid : String) (rm : RunManager) (rd : RunEntry) (op : RaceOp)
    (h : Assoc.get rid rm.active_runs = some rd) :
    Assoc.get rid (applyRace rid rm op).active_runs = none ∧
    Assoc.get rid (applyRace rid rm op).completed_runs =
      some { rd with status := raceStatus op } := by
  cases op with
  | complete b =>
    simp only [applyRace, complete_run_of_some rm rid b rd h]
    exact ⟨Assoc.get_erase_self rid _, by simp [Assoc.get_set_self, raceStatus]⟩
  | cancel =>
    simp only [applyRace, cancel_run_of_some rm rid rd h]
    exact ⟨Assoc.get_erase_self rid _, by simp [Assoc.get_set_self, raceStatus]⟩

/-! ## Claims C1 to C3 -/

/-- C1: starting from an empty registry, no sequence of registry calls ever
makes the number of simultaneously active runs exceed the configured ceiling
`max_concurrent`; `add_run` inserts the run and reports `started` exactly when
the active count is strictly below the ceiling, and reports `at_capacity`
leaving the state unchanged otherwise; in particular with ceiling 1, admitting
"a" starts it, admitting "b" is rejected at capacity, and after completing "a"
admitting "b" starts. -/
theorem claim_C1 :
    (∀ (c : Nat) (ops : List RMOp),
        (applyOps (RunManager.init c) ops).active_runs.length ≤ c) ∧
    (∀ (rm : RunManager) (rid : String) (jd : Nat),
        (rm.active_runs.length < rm.max_concurrent →
          (rm.add_run rid jd).2 = .started rid ∧
          Assoc.get rid (rm.add_run rid jd).1.active_runs =
            some { status := .running, job_data := jd }) ∧
        (¬ rm.active_runs.length < rm.max_concurrent →
          (rm.add_run rid jd).2 = .at_capacity ∧ (rm.add_run rid jd).1 = rm)) ∧
    (((RunManager.init 1).add_run "a" 0).2 = .started "a" ∧
     (((RunManager.init 1).add_run "a" 0).1.add_run "b" 0).2 = .at_capacity ∧
     (((((RunManager.init 1).add_run "a" 0).1.add_run "b" 0).1.complete_run "a"
        true).add_run "b" 0).2 = .started "b") := by
  refine ⟨?_, ?_, ?_, ?_, ?_⟩
  · intro c ops
    have h := applyOps_active_le (RunManager.init c) ops
      (by simp [RunManager.init])
    rwa [applyOps_max] at h
  · intro rm rid jd
    constructor
    · intro h
      simp [add_run_of_lt rm rid jd h, Assoc.get_set_self]
    · intro h
      simp [add_run_of_ge rm rid jd h]
  · decide
  · decide
  · decide

/-- Witness for C1: a concrete registry with ceiling 2 and a free slot admits
run "a" with result `started`. -/
theorem claim_C1_witness :
    (RunManager.init 2).active_runs.length < (RunManager.init 2).max_concurrent ∧
    ((RunManager.init 2).add_run "a" 5).2 = .started "a" :=
  ⟨by decide, ((claim_C1.2.1 (RunManager.init 2) "a" 5).1 (by decide)).1⟩

/-- C2 counterexample: re-admitting a completed run id files it under both
collections.  With ceiling 1, the sequence `add "a"`, `complete "a"`,
`add "a"` ends with "a" present in `active_runs` and in `completed_runs` at
the same time, so the claimed invariant is not preserved by `add_run`. -/
theorem claim_C2_counterexample :
    (Assoc.get "a" (applyOps (RunManager.init 1)
        [.add "a" 0, .complete "a" true, .add "a" 0]).active_runs).isSome = true ∧
    (Assoc.get "a" (applyOps (RunManager.init 1)
        [.add "a" 0, .complete "a" true, .add "a" 0]).completed_runs).isSome = true := by
  decide

/-- C2 (amended): provided `add_run` is never called with a run id already
filed under `completed_runs` (run ids are unique per the data model), a run is
never in both collections at once; a created run never leaves the union of the
two collections; and any interleaving of `complete_run` and `cancel_run` on
the same active run id records exactly one terminal status, the first call's
(`Completed`/`Failed` for `complete_run`, `Cancelled` for `cancel_run`). -/
theorem claim_C2 :
    (∀ (c : Nat) (ops : List RMOp), safeSeq (RunManager.init c) ops = true →
        Excl (applyOps (RunManager.init c) ops)) ∧
    (∀ (rm : RunManager) (op : RMOp) (rid : String),
        Created rm rid → Created (applyOp rm op) rid) ∧
    (∀ (rm : RunManager) (rid : String) (rd : RunEntry) (op : RaceOp)
        (ops : List RaceOp),
        Assoc.get rid rm.active_runs = some rd →
        Assoc.get rid ((op :: ops).foldl (applyRace rid) rm).active_runs = none ∧
        Assoc.get rid ((op :: ops).foldl (applyRace rid) rm).completed_runs =
          some { rd with status := raceStatus op }) := by
  refine ⟨?_, created_step, ?_⟩
  · intro c ops hs
    exact safe_excl ops (RunManager.init c) (by intro rid h; simp [RunManager.init, Assoc.get] at h) hs
  · intro rm rid rd op ops h
    have hf := race_first rid rm rd op h
    simpa using race_stable_fold rid ops (applyRace rid rm op) hf.1 hf.2

/-- Witness for C2: a registry holding the single active run "r"; a
`cancel_run` followed by a racing `complete_run` leaves "r" out of the active
collection and filed once as `Cancelled`. -/
theorem claim_C2_witness :
    Assoc.get "r" (RunManager.mk 1 [("r", ⟨.running, 0⟩)] [] []).active_runs =
      some ⟨.running, 0⟩ ∧
    (Assoc.get "r" (([RaceOp.cancel, RaceOp.complete true]).foldl (applyRace "r")
        (RunManager.mk 1 [("r", ⟨.running, 0⟩)] [] [])).active_runs = none ∧
     Assoc.get "r" (([RaceOp.cancel, RaceOp.complete true]).foldl (applyRace "r")
        (RunManager.mk 1 [("r", ⟨.running, 0⟩)] [] [])).completed_runs =
       some ⟨.cancelled, 0⟩) :=
  ⟨by decide,
   claim_C2.2.2 (RunManager.mk 1 [("r", ⟨.running, 0⟩)] [] []) "r" ⟨.running, 0⟩
     .cancel [.complete true] (by decide)⟩

/-- C3 counterexample: a run id that is in the process-pid table but not in
the active set.  The claim says `cancel_run` then returns `true` (found in
the pid table); the code kills and unregisters the pid but returns `false`. -/
theorem claim_C3_counterexample :
    (((RunManager.init 1).register_process "a" 7).cancel_run "a").2 = false ∧
    ((Assoc.get "a" ((RunManager.init 1).register_process "a" 7).process_pids).isSome ||
     (Assoc.get "a" ((RunManager.init 1).register_process "a" 7).active_runs).isSome)
      = true := by
  decide

/-- C3 (amended): `cancel_run` returns whether the run was found in the
active set (a pid found only in the process-pid table is killed and
unregistered, but the call still returns `false`); it is idempotent — two
calls on an active run id yield `true` then `false` — and cancelling an
unknown or already-completed run id returns `false`, leaves `active_runs`
and `completed_runs` unchanged, and only drops the id's pid-table entry. -/
theorem claim_C3 :
    (∀ (rm : RunManager) (rid : String),
        (rm.cancel_run rid).2 = (Assoc.get rid rm.active_runs).isSome) ∧
    (∀ (rm : RunManager) (rid : String),
        (Assoc.get rid rm.active_runs).isSome = true →
        (rm.cancel_run rid).2 = true ∧
        ((rm.cancel_run rid).1.cancel_run rid).2 = false) ∧
    (∀ (rm : RunManager) (rid : String),
        Assoc.get rid rm.active_runs = none →
        (rm.cancel_run rid).2 = false ∧
        (rm.cancel_run rid).1.active_runs = rm.active_runs ∧
        (rm.cancel_run rid).1.completed_runs = rm.completed_runs ∧
        (rm.cancel_run rid).1.process_pids = Assoc.erase rid rm.process_pids) := by
  refine ⟨cancel_run_snd, ?_, ?_⟩
  · intro rm rid h
    obtain ⟨rd, heq⟩ := Option.isSome_iff_exists.mp h
    refine ⟨by simp [cancel_run_snd, h], ?_⟩
    rw [cancel_run_snd]
    simp [cancel_run_of_some rm rid rd heq, Assoc.get_erase_self]
  · intro rm rid heq
    simp [cancel_run_of_none rm rid heq]

/-- Witness for C3: cancelling the active run "r" of a concrete registry
returns `true`, and cancelling it again returns `false`; cancelling the
unknown id "z" returns `false` and leaves the collections unchanged. -/
theorem claim_C3_witness :
    ((Assoc.get "r" (RunManager.mk 1 [("r", ⟨.running, 0⟩)] [] []).active_runs).isSome
        = true ∧
      ((RunManager.mk 1 [("r", ⟨.running, 0⟩)] [] []).cancel_run "r").2 = true ∧
      (((RunManager.mk 1 [("r", ⟨.running, 0⟩)] [] []).cancel_run "r").1.cancel_run
          "r").2 = false) ∧
    (Assoc.get "z" (RunManager.mk 1 [("r", ⟨.running, 0⟩)] [] []).active_runs = none ∧
      ((RunManager.mk 1 [("r", ⟨.running, 0⟩)] [] []).cancel_run "z").2 = false) :=
  ⟨⟨by decide,
    claim_C3.2.1 (RunManager.mk 1 [("r", ⟨.running, 0⟩)] [] []) "r" (by decide)⟩,
   ⟨by decide,
    (claim_C3.2.2 (RunManager.mk 1 [("r", ⟨.running, 0⟩)] [] []) "z" (by decide)).1⟩⟩

/-! ## Connection hub (`WebSocketManager` in `backend/app/ws_manager.py`)

Connections (`WebSocket` objects) are opaque handles, embedded as `String`
ids.  A message dict is embedded as its `type` field, the
`data`/`action` field when present, the `run_id` field when present, and an
opaque `content` payload standing for the rest. -/

/-- A streaming message, as passed to `send_json`. -/
structure Msg where
  mtype : String
  action : Option String
  run_id : Option String
  content : Nat
deriving DecidableEq, Repr

/-- One observable event on a socket: a message written to it, or its
closure with a reason. -/
inductive WEvent where
  | msg (m : Msg)
  | closed (reason : String)
deriving DecidableEq, Repr

/-- `WebSocketManager.MAX_BUFFER`. -/
def MAX_BUFFER : Nat := 2000

/-- The state of `WebSocketManager`: `conns`, `buffers` and `last_activity`
embed `_conns`, `_buffers` and `_last_activity`.  A run id absent from
`conns`/`buffers` is indistinguishable in the source from one mapped to an
empty set/deque (every read goes through a `defaultdict` or a membership
guard), so lookups default to `[]`.  `traces` is the observation log: the
ordered events each socket has experienced (not Python state). -/
structure WebSocketManager where
  conns : List (String × List String)
  buffers : List (String × List Msg)
  last_activity : List (String × Nat)
  traces : List (String × List WEvent)
deriving DecidableEq, Repr

/-- A fresh hub with no connections, buffers or activity entries. -/
def WebSocketManager.init : WebSocketManager :=
  { conns := [], buffers := [], last_activity := [], traces := [] }

/-- The connection set of a run (`self._conns[run_id]`). -/
def getConns (w : WebSocketManager) (rid : String) : List String :=
  Assoc.getD rid w.conns []

/-- The replay buffer of a run (`self._buffers[run_id]`). -/
def getBuf (w : WebSocketManager) (rid : String) : List Msg :=
  Assoc.getD rid w.buffers []

/-- The event log of a socket. -/
def getTrace (w : WebSocketManager) (s : String) : List WEvent :=
  Assoc.getD s w.traces []

/-- Record one event on a socket. -/
def appendTrace (w : WebSocketManager) (s : String) (e : WEvent) : WebSocketManager :=
  { w with traces := Assoc.set s (getTrace w s ++ [e]) w.traces }

/-- The `connection_ack` message sent on connect, echoing the run id. -/
def ackMsg (rid : String) : Msg :=
  { mtype := "connection_ack", action := none, run_id := some rid, content := 0 }

/-- The `run_cancelled` message broadcast by the cancel endpoint, with
`action = "close_connection"`. -/
def cancelMsg (rid : String) : Msg :=
  { mtype := "run_cancelled", action := some "close_connection",
    run_id := some rid, content := 0 }

/-- The `idle_timeout` notification, carrying the idle duration and run id. -/
def idleMsg (dur : Nat) (rid : String) : Msg :=
  { mtype := "idle_timeout", action := none, run_id := some rid, content := dur }

/-- The check in `send_log` for a cancellation-with-close message. -/
def Msg.isCancel (m : Msg) : Bool :=
  m.mtype == "run_cancelled" && m.action == some "close_connection"

/-- Append to a `deque(maxlen=MAX_BUFFER)`: keep the most recent
`MAX_BUFFER` elements. -/
def pushBuf (b : List Msg) (m : Msg) : List Msg :=
  let b' := b ++ [m]
  if MAX_BUFFER < b'.length then b'.drop (b'.length - MAX_BUFFER) else b'

/-- `WebSocketManager.connect`: accept, add the socket to the run's set,
stamp activity, send the `connection_ack`, then replay the backlog in
order. -/
def connect (w : WebSocketManager) (rid : String) (s : String) (now : Nat) :
    WebSocketManager :=
  let c := getConns w rid
  let w := { w with conns := Assoc.set rid (if s ∈ c then c else c ++ [s]) w.conns }
  let w := { w with last_activity := Assoc.set rid now w.last_activity }
  let w := appendTrace w s (.msg (ackMsg rid))
  (getBuf w rid).foldl (fun acc m => appendTrace acc s (.msg m)) w

/-- `WebSocketManager.disconnect`: discard the socket; if the run's set is
now empty, drop the activity-clock entry and the replay buffer. -/
def disconnect (w : WebSocketManager) (rid : String) (s : String) :
    WebSocketManager :=
  let c := (getConns w rid).filter (fun x => x ≠ s)
  let w := { w with conns := Assoc.set rid c w.conns }
  if c.isEmpty then
    { w with
      last_activity := Assoc.erase rid w.last_activity,
      buffers := Assoc.erase rid w.buffers }
  else w

/-- One iteration of the send loop in `send_log`: skip and mark sockets
whose `send_json` raises (`fails`), record the delivery otherwise, and on a
cancellation message schedule the close (observed after the delivery) and
mark the socket for removal. -/
def deliverStep (m : Msg) (fails : List String)
    (acc : WebSocketManager × List String) (s : String) :
    WebSocketManager × List String :=
  if s ∈ fails then (acc.1, acc.2 ++ [s])
  else
    let w := appendTrace acc.1 s (.msg m)
    if m.isCancel then (appendTrace w s (.closed "Run cancelled"), acc.2 ++ [s])
    else (w, acc.2)

/-- `WebSocketManager.send_log`: stamp activity, append to the replay
buffer, deliver to every connected socket (a failing socket does not stop
the loop), then disconnect every failed or close-scheduled socket. -/
def send_log (w : WebSocketManager) (rid : String) (m : Msg)
    (fails : List String) (now : Nat) : WebSocketManager :=
  let w := { w with last_activity := Assoc.set rid now w.last_activity }
  let w := { w with buffers := Assoc.set rid (pushBuf (getBuf w rid) m) w.buffers }
  let r := (getConns w rid).foldl (deliverStep m fails) (w, [])
  r.2.foldl (fun acc s => disconnect acc rid s) r.1

/-- `WebSocketManager.receive_activity`. -/
def receive_activity (w : WebSocketManager) (rid : String) (now : Nat) :
    WebSocketManager :=
  { w with last_activity := Assoc.set rid now w.last_activity }

/-- `WebSocketManager.close_all_connections`: close every socket of the run
with the reason, disconnect each, then drop the run from the connection
table. -/
def close_all_connections (w : WebSocketManager) (rid : String)
    (reason : String) : WebSocketManager :=
  let cs := getConns w rid
  let w := cs.foldl (fun acc s => disconnect (appendTrace acc s (.closed reason)) rid s) w
  { w with conns := Assoc.erase rid w.conns }

/-- Broadcast a list of messages to a run in order (repeated `send_log`
with no failing sockets). -/
def broadcastAll (w : WebSocketManager) (rid : String) (ms : List Msg) :
    WebSocketManager :=
  ms.foldl (fun acc m => send_log acc rid m [] 0) w

/-- A log message with an opaque payload, for concrete scenarios. -/
def logMsg (i : Nat) : Msg :=
  { mtype := "log", action := none, run_id := none, content := i }

/-! ### Basic facts about the hub operations -/

theorem getTrace_congr {w₁ w₂ : WebSocketManager} (h : w₁.traces = w₂.traces)
    (s : String) : getTrace w₁ s = getTrace w₂ s := by
  simp [getTrace, Assoc.getD, h]

theorem getTrace_appendTrace_self (w : WebSocketManager) (s : String) (e : WEvent) :
    getTrace (appendTrace w s e) s = getTrace w s ++ [e] := by
  simp [getTrace, appendTrace, Assoc.getD, Assoc.get_set_self]

theorem getTrace_appendTrace_ne (w : WebSocketManager) {s s' : String}
    (h : s ≠ s') (e : WEvent) :
    getTrace (appendTrace w s' e) s = getTrace w s := by
  simp [getTrace, appendTrace, Assoc.getD, Assoc.get_set_ne h]

theorem appendTrace_fields (w : WebSocketManager) (s : String) (e : WEvent) :
    (appendTrace w s e).conns = w.conns ∧
    (appendTrace w s e).buffers = w.buffers ∧
    (appendTrace w s e).last_activity = w.last_activity :=
  ⟨rfl, rfl, rfl⟩

theorem disconnect_traces (w : WebSocketManager) (rid s : String) :
    (disconnect w rid s).traces = w.traces := by
  unfold disconnect
  dsimp only
  split <;> rfl

theorem getConns_disconnect_self (w : WebSocketManager) (rid s : String) :
    getConns (disconnect w rid s) rid =
      (getConns w rid).filter (fun x => x ≠ s) := by
  unfold disconnect
  dsimp only
  split <;> simp [getConns, Assoc.getD, Assoc.get_set_self]

theorem getConns_disconnect_ne (w : WebSocketManager) {rid rid' : String}
    (h : rid ≠ rid') (s : String) :
    getConns (disconnect w rid' s) rid = getConns w rid := by
  unfold disconnect
  dsimp only
  split <;> simp [getConns, Assoc.getD, Assoc.get_set_ne h]

theorem disconnect_la_ne (w : WebSocketManager) {rid rid' : String}
    (h : rid ≠ rid') (s : String) :
    Assoc.get rid (disconnect w rid' s).last_activity =
      Assoc.get rid w.last_activity := by
  unfold disconnect
  dsimp only
  split <;> simp [Assoc.get_erase_ne h]

theorem deliverStep_fst_fields (m : Msg) (fails : List String)
    (acc : WebSocketManager × List String) (x : String) :
    (deliverStep m fails acc x).1.conns = acc.1.conns ∧
    (deliverStep m fails acc x).1.buffers = acc.1.buffers ∧
    (deliverStep m fails acc x).1.last_activity = acc.1.last_activity := by
  unfold deliverStep
  split
  · exact ⟨rfl, rfl, rfl⟩
  · dsimp only
    split <;> exact ⟨rfl, rfl, rfl⟩

theorem deliverStep_trace_ne (m : Msg) (fails : List String)
    (acc : WebSocketManager × List String) {s x : String} (h : s ≠ x) :
    getTrace (deliverStep m fails acc x).1 s = getTrace acc.1 s := by
  unfold deliverStep
  split
  · rfl
  · dsimp only
    split <;> simp [getTrace_appendTrace_ne _ h]

theorem deliverStep_trace_self (m : Msg) (fails : List String)
    (acc : WebSocketManager × List String) {s : String} (h : s ∉ fails) :
    getTrace (deliverStep m fails acc s).1 s =
      getTrace acc.1 s ++ [WEvent.msg m] ++
        (if m.isCancel then [WEvent.closed "Run cancelled"] else []) := by
  unfold deliverStep
  rw [if_neg h]
  dsimp only
  split <;> simp [getTrace_appendTrace_self]

theorem deliverStep_trace_mono (m : Msg) (fails : List String)
    (acc : WebSocketManager × List String) (x s : String) :
    ∃ ext, getTrace (deliverStep m fails acc x).1 s = getTrace acc.1 s ++ ext := by
  by_cases hs : s = x
  · subst hs
    by_cases hf : s ∈ fails
    · exact ⟨[], by simp [deliverStep, hf]⟩
    · refine ⟨[WEvent.msg m] ++
        (if m.isCancel then [WEvent.closed "Run cancelled"] else []), ?_⟩
      rw [deliverStep_trace_self m fails acc hf, List.append_assoc]
  · exact ⟨[], by simp [deliverStep_trace_ne m fails acc hs]⟩

theorem deliver_fold_fst_fields (m : Msg) (fails : List String) :
    ∀ (l : List String) (acc : WebSocketManager × List String),
    (l.foldl (deliverStep m fails) acc).1.conns = acc.1.conns ∧
    (l.foldl (deliverStep m fails) acc).1.buffers = acc.1.buffers ∧
    (l.foldl (deliverStep m fails) acc).1.last_activity = acc.1.last_activity := by
  intro l
  induction l with
  | nil => exact fun acc => ⟨rfl, rfl, rfl⟩
  | cons x l ih =>
    intro acc
    have h1 := deliverStep_fst_fields m fails acc x
    have h2 := ih (deliverStep m fails acc x)
    exact ⟨h2.1.trans h1.1, h2.2.1.trans h1.2.1, h2.2.2.trans h1.2.2⟩

theorem deliver_fold_trace_mono (m : Msg) (fails : List String) :
    ∀ (l : List String) (acc : WebSocketManager × List String) (s : String),
    ∃ ext, getTrace (l.foldl (deliverStep m fails) acc).1 s =
      getTrace acc.1 s ++ ext := by
  intro l
  induction l with
  | nil => exact fun acc s => ⟨[], by simp⟩
  | cons x l ih =>
    intro acc s
    obtain ⟨e1, he1⟩ := deliverStep_trace_mono m fails acc x s
    obtain ⟨e2, he2⟩ := ih (deliverStep m fails acc x) s
    exact ⟨e1 ++ e2, by rw [List.foldl_cons, he2, he1, List.append_assoc]⟩

theorem deliver_fold_trace_hit (m : Msg) (fails : List String) :
    ∀ (l : List String) (acc : WebSocketManager × List String) (s : String),
    s ∈ l → s ∉ fails →
    ∃ ext, getTrace (l.foldl (deliverStep m fails) acc).1 s =
      getTrace acc.1 s ++ [WEvent.msg m] ++
        (if m.isCancel then [WEvent.closed "Run cancelled"] else []) ++ ext := by
  intro l
  induction l with
  | nil => intro acc s h; exact absurd h (List.not_mem_nil s)
  | cons x l ih =>
    intro acc s hmem hf
    by_cases hs : s = x
    · subst hs
      obtain ⟨e2, he2⟩ :=
        deliver_fold_trace_mono m fails l (deliverStep m fails acc s) s
      refine ⟨e2, ?_⟩
      rw [List.foldl_cons, he2, deliverStep_trace_self m fails acc hf]
    · have hmem' : s ∈ l := by
        cases List.mem_cons.mp hmem with
        | inl h => exact absurd h hs
        | inr h => exact h
      obtain ⟨ext, hext⟩ := ih (deliverStep m fails acc x) s hmem' hf
      refine ⟨ext, ?_⟩
      rw [List.foldl_cons, hext, deliverStep_trace_ne m fails acc hs]

theorem deliverStep_snd (m : Msg) (fails : List String)
    (acc : WebSocketManager × List String) (x : String) :
    (deliverStep m fails acc x).2 =
      acc.2 ++ (if decide (x ∈ fails) || m.isCancel then [x] else []) := by
  unfold deliverStep
  by_cases hf : x ∈ fails
  · simp [hf]
  · rw [if_neg hf]
    dsimp only
    by_cases hc : m.isCancel
    · simp [hc, hf]
    · simp only [Bool.not_eq_true] at hc
      simp [hc, hf]

theorem deliver_fold_snd (m : Msg) (fails : List String) :
    ∀ (l : List String) (acc : WebSocketManager × List String),
    (l.foldl (deliverStep m fails) acc).2 =
      acc.2 ++ l.filter (fun x => decide (x ∈ fails) || m.isCancel) := by
  intro l
  induction l with
  | nil => intro acc; simp
  | cons x l ih =>
    intro acc
    rw [List.foldl_cons, ih (deliverStep m fails acc x), deliverStep_snd]
    by_cases hx : (decide (x ∈ fails) || m.isCancel) = true
    · simp [List.filter_cons, hx]
    · simp only [Bool.not_eq_true] at hx
      simp [List.filter_cons, hx]

theorem disconnect_fold_traces (rid : String) :
    ∀ (l : List String) (w : WebSocketManager),
    (l.foldl (fun acc x => disconnect acc rid x) w).traces = w.traces := by
  intro l
  induction l with
  | nil => intro w; rfl
  | cons x l ih =>
    intro w
    rw [List.foldl_cons, ih (disconnect w rid x), disconnect_traces]

theorem disconnect_fold_not_mem (rid : String) :
    ∀ (l : List String) (w : WebSocketManager) (s : String),
    (s ∈ l ∨ s ∉ getConns w rid) →
    s ∉ getConns (l.foldl (fun acc x => disconnect acc rid x) w) rid := by
  intro l
  induction l with
  | nil =>
    intro w s h
    cases h with
    | inl h => exact absurd h (List.not_mem_nil s)
    | inr h => exact h
  | cons x l ih =>
    intro w s h
    rw [List.foldl_cons]
    by_cases hs : s = x
    · subst hs
      refine ih (disconnect w rid s) s (Or.inr ?_)
      rw [getConns_disconnect_self]
      intro hmem
      simpa using (List.mem_filter.mp hmem).2
    · cases h with
      | inl h =>
        cases List.mem_cons.mp h with
        | inl h' => exact absurd h' hs
        | inr h' => exact ih (disconnect w rid x) s (Or.inl h')
      | inr h =>
        refine ih (disconnect w rid x) s (Or.inr ?_)
        rw [getConns_disconnect_self]
        intro hmem
        exact h (List.mem_of_mem_filter hmem)

theorem disconnect_fold_keep (rid : String) :
    ∀ (l : List String) (w : WebSocketManager) (s : String),
    s ∉ l → s ∈ getConns w rid →
    s ∈ getConns (l.foldl (fun acc x => disconnect acc rid x) w) rid := by
  intro l
  induction l with
  | nil => intro w s _ h; exact h
  | cons x l ih =>
    intro w s hnot hmem
    rw [List.foldl_cons]
    have hx : s ≠ x := fun h => hnot (h ▸ List.mem_cons_self x l)
    have hl : s ∉ l := fun h => hnot (List.mem_cons_of_mem x h)
    refine ih (disconnect w rid x) s hl ?_
    rw [getConns_disconnect_self]
    exact List.mem_filter.mpr ⟨hmem, by simpa using hx⟩

theorem disconnect_fold_conns_ne {rid rid' : String} (h : rid ≠ rid') :
    ∀ (l : List String) (w : WebSocketManager),
    getConns (l.foldl (fun acc x => disconnect acc rid' x) w) rid =
      getConns w rid := by
  intro l
  induction l with
  | nil => intro w; rfl
  | cons x l ih =>
    intro w
    rw [List.foldl_cons, ih (disconnect w rid' x), getConns_disconnect_ne w h]

theorem disconnect_fold_la_ne {rid rid' : String} (h : rid ≠ rid') :
    ∀ (l : List String) (w : WebSocketManager),
    Assoc.get rid (l.foldl (fun acc x => disconnect acc rid' x) w).last_activity =
      Assoc.get rid w.last_activity := by
  intro l
  induction l with
  | nil => intro w; rfl
  | cons x l ih =>
    intro w
    rw [List.foldl_cons, ih (disconnect w rid' x), disconnect_la_ne w h]

theorem getConns_congr {w₁ w₂ : WebSocketManager} (h : w₁.conns = w₂.conns)
    (rid : String) : getConns w₁ rid = getConns w₂ rid := by
  simp [getConns, Assoc.getD, h]

/-- The state of the hub after the activity stamp and the buffer append in
`send_log`, before the delivery loop. -/
def sendPrep (w : WebSocketManager) (rid : String) (m : Msg) (now : Nat) :
    WebSocketManager :=
  { w with
    last_activity := Assoc.set rid now w.last_activity,
    buffers := Assoc.set rid (pushBuf (getBuf w rid) m) w.buffers }

theorem send_log_eq (w : WebSocketManager) (rid : String) (m : Msg)
    (fails : List String) (now : Nat) :
    send_log w rid m fails now =
      ((getConns w rid).foldl (deliverStep m fails)
          (sendPrep w rid m now, [])).2.foldl
        (fun acc s => disconnect acc rid s)
        ((getConns w rid).foldl (deliverStep m fails)
          (sendPrep w rid m now, [])).1 := rfl

theorem send_log_trace_hit (w : WebSocketManager) (rid : String) (m : Msg)
    (fails : List String) (now : Nat) (s : String)
    (h1 : s ∈ getConns w rid) (h2 : s ∉ fails) :
    ∃ ext, getTrace (send_log w rid m fails now) s =
      getTrace w s ++ [WEvent.msg m] ++
        (if m.isCancel then [WEvent.closed "Run cancelled"] else []) ++ ext := by
  obtain ⟨ext, hext⟩ := deliver_fold_trace_hit m fails (getConns w rid)
    (sendPrep w rid m now, []) s h1 h2
  refine ⟨ext, ?_⟩
  rw [send_log_eq, getTrace_congr (disconnect_fold_traces rid _ _) s, hext]
  rfl

theorem send_log_trace_mono (w : WebSocketManager) (rid : String) (m : Msg)
    (fails : List String) (now : Nat) (s : String) :
    ∃ ext, getTrace (send_log w rid m fails now) s = getTrace w s ++ ext := by
  obtain ⟨ext, hext⟩ := deliver_fold_trace_mono m fails (getConns w rid)
    (sendPrep w rid m now, []) s
  refine ⟨ext, ?_⟩
  rw [send_log_eq, getTrace_congr (disconnect_fold_traces rid _ _) s, hext]
  rfl

theorem send_log_conns_ne (w : WebSocketManager) {rid rid' : String}
    (h : rid ≠ rid') (m : Msg) (fails : List String) (now : Nat) :
    getConns (send_log w rid' m fails now) rid = getConns w rid := by
  rw [send_log_eq, disconnect_fold_conns_ne h,
    getConns_congr (deliver_fold_fst_fields m fails (getConns w rid') _).1 rid]
  rfl

theorem send_log_la_ne (w : WebSocketManager) {rid rid' : String}
    (h : rid ≠ rid') (m : Msg) (fails : List String) (now : Nat) :
    Assoc.get rid (send_log w rid' m fails now).last_activity =
      Assoc.get rid w.last_activity := by
  rw [send_log_eq, disconnect_fold_la_ne h,
    (deliver_fold_fst_fields m fails (getConns w rid') _).2.2]
  exact Assoc.get_set_ne h now w.last_activity

theorem send_log_keeps (w : WebSocketManager) (rid : String) (m : Msg)
    (fails : List String) (now : Nat) (s : String)
    (h1 : s ∈ getConns w rid) (h2 : s ∉ fails) (h3 : m.isCancel = false) :
    s ∈ getConns (send_log w rid m fails now) rid := by
  rw [send_log_eq]
  have hdis : s ∉ ((getConns w rid).foldl (deliverStep m fails)
      (sendPrep w rid m now, [])).2 := by
    rw [deliver_fold_snd]
    intro hmem
    have hmem' : s ∈ List.filter (fun x => decide (x ∈ fails) || m.isCancel)
        (getConns w rid) := by simpa using hmem
    have h4 := (List.mem_filter.mp hmem').2
    simp [h2, h3] at h4
  refine disconnect_fold_keep rid _ _ s hdis ?_
  rw [getConns_congr (deliver_fold_fst_fields m fails (getConns w rid) _).1 rid]
  exact h1

theorem send_log_removes (w : WebSocketManager) (rid : String) (m : Msg)
    (fails : List String) (now : Nat) (s : String)
    (h1 : s ∈ getConns w rid) (h2 : (decide (s ∈ fails) || m.isCancel) = true) :
    s ∉ getConns (send_log w rid m fails now) rid := by
  rw [send_log_eq]
  refine disconnect_fold_not_mem rid _ _ s (Or.inl ?_)
  rw [deliver_fold_snd]
  have hmem : s ∈ List.filter (fun x => decide (x ∈ fails) || m.isCancel)
      (getConns w rid) := List.mem_filter.mpr ⟨h1, by simpa using h2⟩
  simpa using hmem

theorem send_log_nobody (w : WebSocketManager) (rid : String) (m : Msg)
    (fails : List String) (now : Nat) (h : getConns w rid = []) :
    (send_log w rid m fails now).traces = w.traces ∧
    getBuf (send_log w rid m fails now) rid = pushBuf (getBuf w rid) m ∧
    getConns (send_log w rid m fails now) rid = [] := by
  rw [send_log_eq, h]
  refine ⟨rfl, ?_, ?_⟩
  · show getBuf (sendPrep w rid m now) rid = pushBuf (getBuf w rid) m
    simp [getBuf, sendPrep, Assoc.getD, Assoc.get_set_self]
  · show getConns (sendPrep w rid m now) rid = []
    simpa [getConns, sendPrep, Assoc.getD] using h

theorem send_log_single (w : WebSocketManager) (rid : String) (m : Msg)
    (fails : List String) (now : Nat) (s : String)
    (h : getConns w rid = [s]) (h2 : s ∉ fails) (h3 : m.isCancel = false) :
    getTrace (send_log w rid m fails now) s =
      getTrace w s ++ [WEvent.msg m] := by
  rw [send_log_eq, h]
  simp only [List.foldl_cons, List.foldl_nil]
  rw [deliverStep_snd]
  simp only [h3, Bool.or_false, decide_eq_true_eq]
  rw [if_neg h2]
  simp only [List.append_nil, List.foldl_nil]
  have hs := deliverStep_trace_self m fails (sendPrep w rid m now, []) h2
  rw [hs, h3]
  simp [sendPrep, getTrace, Assoc.getD]

/-! ### Facts about `connect` and `close_all_connections` -/

theorem replay_trace_self (s : String) :
    ∀ (ms : List Msg) (w : WebSocketManager),
    getTrace (ms.foldl (fun acc m => appendTrace acc s (.msg m)) w) s =
      getTrace w s ++ ms.map WEvent.msg := by
  intro ms
  induction ms with
  | nil => intro w; simp
  | cons m ms ih =>
    intro w
    rw [List.foldl_cons, ih (appendTrace w s (.msg m)),
      getTrace_appendTrace_self]
    simp

theorem replay_fields (s : String) :
    ∀ (ms : List Msg) (w : WebSocketManager),
    (ms.foldl (fun acc m => appendTrace acc s (.msg m)) w).conns = w.conns ∧
    (ms.foldl (fun acc m => appendTrace acc s (.msg m)) w).buffers = w.buffers ∧
    (ms.foldl (fun acc m => appendTrace acc s (.msg m)) w).last_activity =
      w.last_activity := by
  intro ms
  induction ms with
  | nil => intro w; exact ⟨rfl, rfl, rfl⟩
  | cons m ms ih =>
    intro w
    have h := ih (appendTrace w s (.msg m))
    exact ⟨h.1, h.2.1, h.2.2⟩

theorem connect_eq (w : WebSocketManager) (rid s : String) (now : Nat) :
    connect w rid s now =
      (getBuf w rid).foldl (fun acc m => appendTrace acc s (.msg m))
        (appendTrace
          { w with
            conns := Assoc.set rid
              (if s ∈ getConns w rid then getConns w rid
               else getConns w rid ++ [s]) w.conns,
            last_activity := Assoc.set rid now w.last_activity }
          s (.msg (ackMsg rid))) := rfl

theorem connect_trace_self (w : WebSocketManager) (rid s : String) (now : Nat) :
    getTrace (connect w rid s now) s =
      getTrace w s ++ [WEvent.msg (ackMsg rid)] ++ (getBuf w rid).map WEvent.msg := by
  rw [connect_eq, replay_trace_self, getTrace_appendTrace_self]
  rfl

theorem getConns_connect_self (w : WebSocketManager) (rid s : String) (now : Nat) :
    getConns (connect w rid s now) rid =
      (if s ∈ getConns w rid then getConns w rid else getConns w rid ++ [s]) := by
  rw [connect_eq, getConns_congr (replay_fields s (getBuf w rid) _).1 rid]
  simp [getConns, appendTrace, Assoc.getD, Assoc.get_set_self]

theorem connect_la_self (w : WebSocketManager) (rid s : String) (now : Nat) :
    Assoc.get rid (connect w rid s now).last_activity = some now := by
  rw [connect_eq, (replay_fields s (getBuf w rid) _).2.2]
  exact Assoc.get_set_self rid now w.last_activity

theorem caStep_trace_self (reason : String)
    (acc : WebSocketManager) (rid s : String) :
    getTrace (disconnect (appendTrace acc s (.closed reason)) rid s) s =
      getTrace acc s ++ [WEvent.closed reason] := by
  rw [getTrace_congr (disconnect_traces _ rid s) s, getTrace_appendTrace_self]

theorem caStep_trace_ne (reason : String)
    (acc : WebSocketManager) (rid : String) {s x : String} (h : s ≠ x) :
    getTrace (disconnect (appendTrace acc x (.closed reason)) rid x) s =
      getTrace acc s := by
  rw [getTrace_congr (disconnect_traces _ rid x) s, getTrace_appendTrace_ne _ h]

theorem caStep_trace_mono (reason : String)
    (acc : WebSocketManager) (rid x s : String) :
    ∃ ext, getTrace (disconnect (appendTrace acc x (.closed reason)) rid x) s =
      getTrace acc s ++ ext := by
  by_cases hs : s = x
  · subst hs
    exact ⟨[WEvent.closed reason], caStep_trace_self reason acc rid s⟩
  · exact ⟨[], by rw [caStep_trace_ne reason acc rid hs, List.append_nil]⟩

theorem caFold_trace_mono (reason : String) (rid : String) :
    ∀ (l : List String) (w : WebSocketManager) (s : String),
    ∃ ext, getTrace (l.foldl
        (fun acc x => disconnect (appendTrace acc x (.closed reason)) rid x) w) s =
      getTrace w s ++ ext := by
  intro l
  induction l with
  | nil => exact fun w s => ⟨[], by simp⟩
  | cons x l ih =>
    intro w s
    obtain ⟨e1, he1⟩ := caStep_trace_mono reason w rid x s
    obtain ⟨e2, he2⟩ := ih (disconnect (appendTrace w x (.closed reason)) rid x) s
    exact ⟨e1 ++ e2, by rw [List.foldl_cons, he2, he1, List.append_assoc]⟩

theorem caFold_trace_hit (reason : String) (rid : String) :
    ∀ (l : List String) (w : WebSocketManager) (s : String), s ∈ l →
    ∃ ext, getTrace (l.foldl
        (fun acc x => disconnect (appendTrace acc x (.closed reason)) rid x) w) s =
      getTrace w s ++ [WEvent.closed reason] ++ ext := by
  intro l
  induction l with
  | nil => intro w s h; exact absurd h (List.not_mem_nil s)
  | cons x l ih =>
    intro w s hmem
    by_cases hs : s = x
    · subst hs
      obtain ⟨e2, he2⟩ := caFold_trace_mono reason rid l
        (disconnect (appendTrace w s (.closed reason)) rid s) s
      exact ⟨e2, by rw [List.foldl_cons, he2, caStep_trace_self]⟩
    · have hmem' : s ∈ l := by
        cases List.mem_cons.mp hmem with
        | inl h => exact absurd h hs
        | inr h => exact h
      obtain ⟨ext, hext⟩ := ih
        (disconnect (appendTrace w x (.closed reason)) rid x) s hmem'
      exact ⟨ext, by rw [List.foldl_cons, hext, caStep_trace_ne reason w rid hs]⟩

theorem close_all_eq (w : WebSocketManager) (rid reason : String) :
    close_all_connections w rid reason =
      { (getConns w rid).foldl
          (fun acc s => disconnect (appendTrace acc s (.closed reason)) rid s) w with
        conns := Assoc.erase rid
          ((getConns w rid).foldl
            (fun acc s => disconnect (appendTrace acc s (.closed reason)) rid s)
            w).conns } := rfl

theorem close_all_trace_hit (w : WebSocketManager) (rid reason s : String)
    (h : s ∈ getConns w rid) :
    ∃ ext, getTrace (close_all_connections w rid reason) s =
      getTrace w s ++ [WEvent.closed reason] ++ ext := by
  obtain ⟨ext, hext⟩ := caFold_trace_hit reason rid (getConns w rid) w s h
  exact ⟨ext, by rw [close_all_eq]; exact hext⟩

theorem close_all_trace_mono (w : WebSocketManager) (rid reason s : String) :
    ∃ ext, getTrace (close_all_connections w rid reason) s =
      getTrace w s ++ ext := by
  obtain ⟨ext, hext⟩ := caFold_trace_mono reason rid (getConns w rid) w s
  exact ⟨ext, by rw [close_all_eq]; exact hext⟩

theorem close_all_conns_self (w : WebSocketManager) (rid reason : String) :
    getConns (close_all_connections w rid reason) rid = [] := by
  rw [close_all_eq]
  simp [getConns, Assoc.getD, Assoc.get_erase_self]

theorem caFold_conns_ne {rid rid' : String} (h : rid ≠ rid') (reason : String) :
    ∀ (l : List String) (w : WebSocketManager),
    getConns (l.foldl
      (fun acc x => disconnect (appendTrace acc x (.closed reason)) rid' x) w) rid =
      getConns w rid := by
  intro l
  induction l with
  | nil => intro w; rfl
  | cons x l ih =>
    intro w
    rw [List.foldl_cons, ih, getConns_disconnect_ne _ h]
    exact getConns_congr rfl rid

theorem caFold_la_ne {rid rid' : String} (h : rid ≠ rid') (reason : String) :
    ∀ (l : List String) (w : WebSocketManager),
    Assoc.get rid (l.foldl
      (fun acc x => disconnect (appendTrace acc x (.closed reason)) rid' x)
        w).last_activity = Assoc.get rid w.last_activity := by
  intro l
  induction l with
  | nil => intro w; rfl
  | cons x l ih =>
    intro w
    rw [List.foldl_cons, ih, disconnect_la_ne _ h]
    rfl

theorem close_all_conns_ne (w : WebSocketManager) {rid rid' : String}
    (h : rid ≠ rid') (reason : String) :
    getConns (close_all_connections w rid' reason) rid = getConns w rid := by
  rw [close_all_eq]
  have := caFold_conns_ne h reason (getConns w rid') w
  simpa [getConns, Assoc.getD, Assoc.get_erase_ne h] using this

theorem close_all_la_ne (w : WebSocketManager) {rid rid' : String}
    (h : rid ≠ rid') (reason : String) :
    Assoc.get rid (close_all_connections w rid' reason).last_activity =
      Assoc.get rid w.last_activity := by
  rw [close_all_eq]
  exact caFold_la_ne h reason (getConns w rid') w

/-! ### Buffer arithmetic (FIFO eviction) -/

theorem pushBuf_eq (b : List Msg) (m : Msg) :
    pushBuf b m = (b ++ [m]).drop ((b ++ [m]).length - MAX_BUFFER) := by
  unfold pushBuf
  dsimp only
  split
  · rfl
  · next hle =>
    have : (b ++ [m]).length - MAX_BUFFER = 0 := by omega
    rw [this, List.drop_zero]

theorem takeRight_append_takeRight {α : Type} (n : Nat) (l ms : List α) :
    (l.drop (l.length - n) ++ ms).drop
        ((l.drop (l.length - n) ++ ms).length - n) =
      (l ++ ms).drop ((l ++ ms).length - n) := by
  rw [List.drop_append_eq_append_drop, List.drop_append_eq_append_drop,
    List.drop_drop]
  congr 1
  · congr 1
    simp only [List.length_append, List.length_drop]
    omega
  · congr 1
    simp only [List.length_append, List.length_drop]
    omega

theorem pushBuf_fold :
    ∀ (ms : List Msg) (b : List Msg), b.length ≤ MAX_BUFFER →
    ms.foldl pushBuf b = (b ++ ms).drop ((b ++ ms).length - MAX_BUFFER) := by
  intro ms
  induction ms with
  | nil =>
    intro b hb
    have h0 : (b ++ []).length - MAX_BUFFER = 0 := by
      simp only [List.append_nil]
      omega
    rw [h0, List.drop_zero, List.append_nil, List.foldl_nil]
  | cons m ms ih =>
    intro b hb
    have hlen : (pushBuf b m).length ≤ MAX_BUFFER := by
      rw [pushBuf_eq]
      simp only [List.length_drop, List.length_append, List.length_cons]
      omega
    rw [List.foldl_cons, ih (pushBuf b m) hlen, pushBuf_eq,
      takeRight_append_takeRight]
    simp

theorem broadcastAll_nobody :
    ∀ (ms : List Msg) (w : WebSocketManager) (rid : String),
    getConns w rid = [] →
    getConns (broadcastAll w rid ms) rid = [] ∧
    getBuf (broadcastAll w rid ms) rid = ms.foldl pushBuf (getBuf w rid) ∧
    (broadcastAll w rid ms).traces = w.traces := by
  intro ms
  induction ms with
  | nil => intro w rid h; exact ⟨h, rfl, rfl⟩
  | cons m ms ih =>
    intro w rid h
    have hn := send_log_nobody w rid m [] 0 h
    have hi' := ih (send_log w rid m [] 0) rid hn.2.2
    refine ⟨hi'.1, ?_, hi'.2.2.trans hn.1⟩
    rw [show broadcastAll w rid (m :: ms) =
        broadcastAll (send_log w rid m [] 0) rid ms from rfl,
      hi'.2.1, hn.2.1, List.foldl_cons]

/-! ## Claims C4 and C7 to C10 -/

/-- C7: broadcasting any message sequence to a fresh run leaves the replay
buffer holding exactly the most recent `MAX_BUFFER = 2000` messages in
broadcast order (FIFO eviction of the oldest); in particular a sequence of at
most 2000 messages is retained in full, in order. -/
theorem claim_C7 :
    (∀ (rid : String) (ms : List Msg),
        getBuf (broadcastAll WebSocketManager.init rid ms) rid =
          ms.drop (ms.length - MAX_BUFFER)) ∧
    (∀ (rid : String) (ms : List Msg), ms.length ≤ MAX_BUFFER →
        getBuf (broadcastAll WebSocketManager.init rid ms) rid = ms) := by
  have key : ∀ (rid : String) (ms : List Msg),
      getBuf (broadcastAll WebSocketManager.init rid ms) rid =
        ms.drop (ms.length - MAX_BUFFER) := by
    intro rid ms
    have h := (broadcastAll_nobody ms WebSocketManager.init rid rfl).2.1
    rw [h]
    have : getBuf WebSocketManager.init rid = [] := rfl
    rw [this, pushBuf_fold ms [] (by simp)]
    simp
  refine ⟨key, ?_⟩
  intro rid ms hle
  rw [key rid ms, Nat.sub_eq_zero_of_le hle, List.drop_zero]

/-- Witness for C7: broadcasting three messages to a fresh run retains all
three in order. -/
theorem claim_C7_witness :
    [logMsg 1, logMsg 2, logMsg 3].length ≤ MAX_BUFFER ∧
    getBuf (broadcastAll WebSocketManager.init "y"
        [logMsg 1, logMsg 2, logMsg 3]) "y" =
      [logMsg 1, logMsg 2, logMsg 3] :=
  ⟨by decide, claim_C7.2 "y" [logMsg 1, logMsg 2, logMsg 3] (by decide)⟩

/-- C8: `disconnect` removes the given connection from the run's set, and
when the removed connection was the last one, the run's activity-clock entry
and replay buffer are both dropped; hence after connect, broadcasts 1..3,
disconnect of the last connection, broadcast of message 4 and a fresh
connect, the new connection receives only the ack and message 4. -/
theorem claim_C8 :
    (∀ (w : WebSocketManager) (rid s : String),
        getConns (disconnect w rid s) rid =
          (getConns w rid).filter (fun x => x ≠ s) ∧
        ((getConns w rid).filter (fun x => x ≠ s) = [] →
          Assoc.get rid (disconnect w rid s).last_activity = none ∧
          Assoc.get rid (disconnect w rid s).buffers = none)) ∧
    (getTrace
        (connect
          (send_log
            (disconnect
              (broadcastAll (connect WebSocketManager.init "r" "s1" 0) "r"
                [logMsg 1, logMsg 2, logMsg 3])
              "r" "s1")
            "r" (logMsg 4) [] 0)
          "r" "s2" 0) "s2"
      = [WEvent.msg (ackMsg "r"), WEvent.msg (logMsg 4)]) := by
  refine ⟨?_, by decide⟩
  intro w rid s
  refine ⟨getConns_disconnect_self w rid s, ?_⟩
  intro hemp
  have hc : ((getConns w rid).filter (fun x => x ≠ s)).isEmpty = true := by
    rw [hemp]
    rfl
  unfold disconnect
  dsimp only
  rw [if_pos hc]
  exact ⟨Assoc.get_erase_self rid _, Assoc.get_erase_self rid _⟩

/-- Witness for C8: disconnecting the only connection of a concrete run
drops its activity entry and buffer. -/
theorem claim_C8_witness :
    (getConns (WebSocketManager.mk [("r", ["a"])] [("r", [logMsg 1])]
        [("r", 7)] []) "r").filter (fun x => x ≠ "a") = [] ∧
    Assoc.get "r" (disconnect (WebSocketManager.mk [("r", ["a"])]
        [("r", [logMsg 1])] [("r", 7)] []) "r" "a").last_activity = none ∧
    Assoc.get "r" (disconnect (WebSocketManager.mk [("r", ["a"])]
        [("r", [logMsg 1])] [("r", 7)] []) "r" "a").buffers = none := by
  refine ⟨by decide, ?_⟩
  exact (claim_C8.1 (WebSocketManager.mk [("r", ["a"])] [("r", [logMsg 1])]
    [("r", 7)] []) "r" "a").2 (by decide)

/-- C9: a delivery failure on one socket does not abort the broadcast: every
connected socket whose send does not fail still receives the message, and
every connected socket whose send fails is removed from the run's set. -/
theorem claim_C9 :
    ∀ (w : WebSocketManager) (rid : String) (m : Msg) (fails : List String)
      (now : Nat) (s : String), s ∈ getConns w rid →
    (s ∉ fails → ∃ ext, getTrace (send_log w rid m fails now) s =
        getTrace w s ++ [WEvent.msg m] ++ ext) ∧
    (s ∈ fails → s ∉ getConns (send_log w rid m fails now) rid) := by
  intro w rid m fails now s hmem
  constructor
  · intro hf
    obtain ⟨ext, hext⟩ := send_log_trace_hit w rid m fails now s hmem hf
    refine ⟨(if m.isCancel then [WEvent.closed "Run cancelled"] else []) ++ ext, ?_⟩
    rw [hext]
    simp [List.append_assoc]
  · intro hf
    exact send_log_removes w rid m fails now s hmem (by simp [hf])

/-- Witness for C9: with sockets "a" and "b" connected and "a" failing,
socket "a" is removed from the run's set. -/
theorem claim_C9_witness :
    "a" ∈ getConns (WebSocketManager.mk [("r", ["a", "b"])] [] [] []) "r" ∧
    "a" ∈ ["a"] ∧
    "a" ∉ getConns (send_log (WebSocketManager.mk [("r", ["a", "b"])] [] [] [])
        "r" (logMsg 9) ["a"] 1) "r" :=
  ⟨by decide, by decide,
   (claim_C9 (WebSocketManager.mk [("r", ["a", "b"])] [] [] []) "r" (logMsg 9)
      ["a"] 1 "a" (by decide)).2 (by decide)⟩

/-- C10: `connect` succeeds for every run id, including one the run registry
has never admitted (`get_run_status` reports `not_found`): it acks with that
run id, replays the (possibly empty) backlog, adds the socket to the run's
set and stamps the activity clock — the hub never consults the registry. -/
theorem claim_C10 :
    ∀ (rm : RunManager) (w : WebSocketManager) (rid s : String) (now : Nat),
    rm.get_run_status rid = "not_found" →
    getTrace (connect w rid s now) s =
      getTrace w s ++ [WEvent.msg (ackMsg rid)] ++ (getBuf w rid).map WEvent.msg ∧
    s ∈ getConns (connect w rid s now) rid ∧
    Assoc.get rid (connect w rid s now).last_activity = some now := by
  intro rm w rid s now _
  refine ⟨connect_trace_self w rid s now, ?_, connect_la_self w rid s now⟩
  rw [getConns_connect_self]
  by_cases hmem : s ∈ getConns w rid
  · rw [if_pos hmem]
    exact hmem
  · rw [if_neg hmem]
    exact List.mem_append_right _ (List.mem_singleton_self s)

/-- Witness for C10: connecting to the never-admitted run id "ghost" on a
fresh hub yields the ack, an empty backlog replay, membership and an
activity stamp. -/
theorem claim_C10_witness :
    (RunManager.init 1).get_run_status "ghost" = "not_found" ∧
    (getTrace (connect WebSocketManager.init "ghost" "s" 3) "s" =
        getTrace WebSocketManager.init "s" ++ [WEvent.msg (ackMsg "ghost")] ++
          (getBuf WebSocketManager.init "ghost").map WEvent.msg ∧
      "s" ∈ getConns (connect WebSocketManager.init "ghost" "s" 3) "ghost" ∧
      Assoc.get "ghost" (connect WebSocketManager.init "ghost" "s" 3).last_activity
        = some 3) :=
  ⟨by decide,
   claim_C10 (RunManager.init 1) WebSocketManager.init "ghost" "s" 3 (by decide)⟩

/-- C4 counterexample: a connection joining run "y" after one message has
been broadcast and before message 2 — but after an earlier connection came
and went, dropping the buffer — receives only the ack, not message 1, so the
replay is not always exactly messages 1..N. -/
theorem claim_C4_counterexample :
    getTrace
        (connect
          (disconnect
            (send_log (connect WebSocketManager.init "y" "s1" 0) "y"
              (logMsg 1) [] 0)
            "y" "s1")
          "y" "s2" 0) "s2"
      = [WEvent.msg (ackMsg "y")] ∧
    getTrace
        (connect
          (disconnect
            (send_log (connect WebSocketManager.init "y" "s1" 0) "y"
              (logMsg 1) [] 0)
            "y" "s1")
          "y" "s2" 0) "s2"
      ≠ [WEvent.msg (ackMsg "y"), WEvent.msg (logMsg 1)] := by
  refine ⟨by decide, by decide⟩

/-- C4 (amended): for every connection joining a run whose buffer was never
dropped by an earlier disconnect (here: a run with no prior connections)
after N ≤ 2000 messages have been broadcast and before message N+1, `connect`
delivers first the `connection_ack` carrying the run id, then exactly
messages 1..N in original broadcast order, and only afterwards the live
message N+1 — no duplication, no gap, no interleaving. -/
theorem claim_C4 :
    ∀ (w : WebSocketManager) (rid s : String) (ms : List Msg) (m : Msg)
      (t2 t3 : Nat),
    getConns w rid = [] → getBuf w rid = [] → getTrace w s = [] →
    ms.length ≤ MAX_BUFFER → m.isCancel = false →
    getTrace (send_log (connect (broadcastAll w rid ms) rid s t2) rid m [] t3) s
      = [WEvent.msg (ackMsg rid)] ++ ms.map WEvent.msg ++ [WEvent.msg m] := by
  intro w rid s ms m t2 t3 hc hb ht hlen hm
  have hn := broadcastAll_nobody ms w rid hc
  have hbuf : getBuf (broadcastAll w rid ms) rid = ms := by
    rw [hn.2.1, hb, pushBuf_fold ms [] (by simp), List.nil_append,
      Nat.sub_eq_zero_of_le hlen, List.drop_zero]
  have htr : getTrace (broadcastAll w rid ms) s = [] := by
    rw [getTrace_congr hn.2.2 s, ht]
  have hconn : getConns (connect (broadcastAll w rid ms) rid s t2) rid = [s] := by
    rw [getConns_connect_self, hn.1]
    simp
  rw [send_log_single _ rid m [] t3 s hconn (by simp) hm,
    connect_trace_self, htr, hbuf]
  simp

/-- Witness for C4: a fresh run, three broadcast messages, then a connect
and one live message; the connection sees ack, 1..3, then the live message. -/
theorem claim_C4_witness :
    (getConns WebSocketManager.init "y" = [] ∧
      getBuf WebSocketManager.init "y" = [] ∧
      getTrace WebSocketManager.init "s" = [] ∧
      [logMsg 1, logMsg 2, logMsg 3].length ≤ MAX_BUFFER ∧
      (logMsg 4).isCancel = false) ∧
    getTrace (send_log (connect (broadcastAll WebSocketManager.init "y"
          [logMsg 1, logMsg 2, logMsg 3]) "y" "s" 1) "y" (logMsg 4) [] 2) "s"
      = [WEvent.msg (ackMsg "y")] ++
          [logMsg 1, logMsg 2, logMsg 3].map WEvent.msg ++ [WEvent.msg (logMsg 4)] :=
  ⟨⟨by decide, by decide, by decide, by decide, by decide⟩,
   claim_C4 WebSocketManager.init "y" "s" [logMsg 1, logMsg 2, logMsg 3]
     (logMsg 4) 1 2 (by decide) (by decide) (by decide) (by decide) (by decide)⟩

/-! ## The composed system: registry plus hub -/

/-- The whole backend state: the run registry and the connection hub. -/
structure Sys where
  rm : RunManager
  ws : WebSocketManager
deriving DecidableEq, Repr

/-- The `DELETE /runs/run_id/cancel` endpoint (`cancel_run` in `main.py`):
cancel in the registry; on success broadcast the `run_cancelled` /
`close_connection` message (each delivered socket is then scheduled to
close), then drop the run's connection entry without closing the rest. -/
def cancelEndpoint (sys : Sys) (rid : String) (fails : List String)
    (now : Nat) : Sys × Bool :=
  let r := sys.rm.cancel_run rid
  if r.2 then
    let w := send_log sys.ws rid (cancelMsg rid) fails now
    let w := { w with conns := Assoc.erase rid w.conns }
    ({ rm := r.1, ws := w }, true)
  else
    ({ rm := r.1, ws := sys.ws }, false)

/-- C5: cancelling a run that is active and has a healthy connection makes
that connection observe the `run_cancelled` message (whose data carries
`action = close_connection`) strictly before its socket close — no silent
drop — and a subsequent status query for the run reports `cancelled`. -/
theorem claim_C5 :
    ∀ (sys : Sys) (rid s : String) (fails : List String) (now : Nat)
      (rd : RunEntry),
    Assoc.get rid sys.rm.active_runs = some rd →
    s ∈ getConns sys.ws rid →
    s ∉ fails →
    (cancelEndpoint sys rid fails now).2 = true ∧
    (∃ ext, getTrace (cancelEndpoint sys rid fails now).1.ws s =
        getTrace sys.ws s ++
          [WEvent.msg (cancelMsg rid), WEvent.closed "Run cancelled"] ++ ext) ∧
    (cancelEndpoint sys rid fails now).1.rm.get_run_status rid = "cancelled" := by
  intro sys rid s fails now rd hact hmem hf
  have hr := cancel_run_of_some sys.rm rid rd hact
  have hsnd : (sys.rm.cancel_run rid).2 = true := by rw [hr]
  have hcanc : (cancelMsg rid).isCancel = true := rfl
  have hep : cancelEndpoint sys rid fails now =
      ({ rm := (sys.rm.cancel_run rid).1,
         ws := { send_log sys.ws rid (cancelMsg rid) fails now with
                 conns := Assoc.erase rid
                   (send_log sys.ws rid (cancelMsg rid) fails now).conns } },
       true) := by
    unfold cancelEndpoint
    rw [if_pos hsnd]
  refine ⟨by rw [hep], ?_, ?_⟩
  · obtain ⟨ext, hext⟩ := send_log_trace_hit sys.ws rid (cancelMsg rid)
      fails now s hmem hf
    rw [hcanc] at hext
    refine ⟨ext, ?_⟩
    rw [hep]
    show getTrace (send_log sys.ws rid (cancelMsg rid) fails now) s = _
    rw [hext]
    simp [List.append_assoc]
  · rw [hep]
    show ((sys.rm.cancel_run rid).1).get_run_status rid = "cancelled"
    rw [hr]
    simp [RunManager.get_run_status, Assoc.get_erase_self, Assoc.get_set_self,
      RunStatus.toString]

/-- Witness for C5: cancelling the concrete active run "x" with the single
healthy socket "a" delivers `run_cancelled` then the close, and the status
query then reports `cancelled`. -/
theorem claim_C5_witness :
    (Assoc.get "x" (Sys.mk (RunManager.mk 1 [("x", ⟨.running, 0⟩)] [] [])
        (WebSocketManager.mk [("x", ["a"])] [] [("x", 0)] [])).rm.active_runs =
      some ⟨.running, 0⟩ ∧
     "a" ∈ getConns (Sys.mk (RunManager.mk 1 [("x", ⟨.running, 0⟩)] [] [])
        (WebSocketManager.mk [("x", ["a"])] [] [("x", 0)] [])).ws "x") ∧
    ((cancelEndpoint (Sys.mk (RunManager.mk 1 [("x", ⟨.running, 0⟩)] [] [])
        (WebSocketManager.mk [("x", ["a"])] [] [("x", 0)] [])) "x" [] 9).2 = true ∧
     (∃ ext, getTrace (cancelEndpoint (Sys.mk
          (RunManager.mk 1 [("x", ⟨.running, 0⟩)] [] [])
          (WebSocketManager.mk [("x", ["a"])] [] [("x", 0)] [])) "x" [] 9).1.ws "a" =
        getTrace (Sys.mk (RunManager.mk 1 [("x", ⟨.running, 0⟩)] [] [])
          (WebSocketManager.mk [("x", ["a"])] [] [("x", 0)] [])).ws "a" ++
          [WEvent.msg (cancelMsg "x"), WEvent.closed "Run cancelled"] ++ ext) ∧
     (cancelEndpoint (Sys.mk (RunManager.mk 1 [("x", ⟨.running, 0⟩)] [] [])
        (WebSocketManager.mk [("x", ["a"])] [] [("x", 0)] []))
          "x" [] 9).1.rm.get_run_status "x" = "cancelled") :=
  ⟨⟨by decide, by decide⟩,
   claim_C5 (Sys.mk (RunManager.mk 1 [("x", ⟨.running, 0⟩)] [] [])
      (WebSocketManager.mk [("x", ["a"])] [] [("x", 0)] []))
     "x" "a" [] 9 ⟨.running, 0⟩ (by decide) (by decide) (by decide)⟩

/-! ## The idle monitor (`_monitor_idle_connections` in `ws_manager.py`) -/

/-- The scan step of one monitor cycle: a tracked run makes the idle list
when its idle duration exceeds the timeout and it still has at least one
live connection; the list carries the run id and its idle duration. -/
def idleProbe (timeout now : Nat) (w : WebSocketManager) (p : String × Nat) :
    Option (String × Nat) :=
  if timeout < now - p.2 then
    if (getConns w p.1).isEmpty then none
    else some (p.1, now - p.2)
  else none

/-- Handling of one idle run, in the source's order: broadcast the
`idle_timeout` notification, cancel the run in the registry, close all of
the run's connections with reason "Idle timeout", drop the activity-clock
entry. -/
def processIdle (fails : List String) (now : Nat) (sys : Sys)
    (p : String × Nat) : Sys :=
  let w := send_log sys.ws p.1 (idleMsg p.2 p.1) fails now
  let rm := (sys.rm.cancel_run p.1).1
  let w := close_all_connections w p.1 "Idle timeout"
  let w := { w with last_activity := Assoc.erase p.1 w.last_activity }
  { rm := rm, ws := w }

/-- One cycle of the idle-monitor loop: scan the activity clocks into the
idle list, then handle each idle run in order. -/
def monitorCycle (timeout : Nat) (fails : List String) (sys : Sys)
    (now : Nat) : Sys :=
  (sys.ws.last_activity.filterMap (idleProbe timeout now sys.ws)).foldl
    (processIdle fails now) sys

theorem idleProbe_some {timeout now : Nat} {w : WebSocketManager}
    {p q : String × Nat} (h : idleProbe timeout now w p = some q) :
    q = (p.1, now - p.2) ∧ timeout < now - p.2 ∧
      (getConns w p.1).isEmpty = false := by
  unfold idleProbe at h
  split at h
  · split at h
    · exact absurd h (by simp)
    · next hne =>
      next hlt => exact ⟨(Option.some.injEq _ _ ▸ h).symm, hlt, by simpa using hne⟩
  · exact absurd h (by simp)

theorem idleProbe_hit {timeout now : Nat} {w : WebSocketManager}
    {rid : String} {last : Nat} (h1 : timeout < now - last)
    (h2 : (getConns w rid).isEmpty = false) :
    idleProbe timeout now w (rid, last) = some (rid, now - last) := by
  unfold idleProbe
  rw [if_pos h1, if_neg (by simp [h2])]

theorem cancel_run_frame (rm : RunManager) {rid rid' : String}
    (h : rid ≠ rid') :
    Assoc.get rid (rm.cancel_run rid').1.active_runs =
      Assoc.get rid rm.active_runs ∧
    Assoc.get rid (rm.cancel_run rid').1.completed_runs =
      Assoc.get rid rm.completed_runs := by
  cases heq : Assoc.get rid' rm.active_runs with
  | some rd =>
    rw [cancel_run_of_some rm rid' rd heq]
    exact ⟨Assoc.get_erase_ne h _, Assoc.get_set_ne h _ _⟩
  | none =>
    rw [cancel_run_of_none rm rid' heq]
    exact ⟨rfl, rfl⟩

theorem processIdle_eq (fails : List String) (now : Nat) (sys : Sys)
    (p : String × Nat) :
    processIdle fails now sys p =
      { rm := (sys.rm.cancel_run p.1).1,
        ws := { close_all_connections
                  (send_log sys.ws p.1 (idleMsg p.2 p.1) fails now)
                  p.1 "Idle timeout" with
                last_activity := Assoc.erase p.1
                  (close_all_connections
                    (send_log sys.ws p.1 (idleMsg p.2 p.1) fails now)
                    p.1 "Idle timeout").last_activity } } := rfl

theorem processIdle_frame (fails : List String) (now : Nat) (sys : Sys)
    (p : String × Nat) {rid : String} (h : rid ≠ p.1) :
    getConns (processIdle fails now sys p).ws rid = getConns sys.ws rid ∧
    Assoc.get rid (processIdle fails now sys p).ws.last_activity =
      Assoc.get rid sys.ws.last_activity ∧
    Assoc.get rid (processIdle fails now sys p).rm.active_runs =
      Assoc.get rid sys.rm.active_runs ∧
    Assoc.get rid (processIdle fails now sys p).rm.completed_runs =
      Assoc.get rid sys.rm.completed_runs := by
  rw [processIdle_eq]
  refine ⟨?_, ?_, (cancel_run_frame sys.rm h).1, (cancel_run_frame sys.rm h).2⟩
  · show getConns (close_all_connections
      (send_log sys.ws p.1 (idleMsg p.2 p.1) fails now) p.1 "Idle timeout") rid = _
    rw [close_all_conns_ne _ h, send_log_conns_ne _ h]
  · show Assoc.get rid (Assoc.erase p.1 (close_all_connections
      (send_log sys.ws p.1 (idleMsg p.2 p.1) fails now)
        p.1 "Idle timeout").last_activity) = _
    rw [Assoc.get_erase_ne h, close_all_la_ne _ h, send_log_la_ne _ h]

theorem processIdle_trace_mono (fails : List String) (now : Nat) (sys : Sys)
    (p : String × Nat) (s : String) :
    ∃ ext, getTrace (processIdle fails now sys p).ws s =
      getTrace sys.ws s ++ ext := by
  rw [processIdle_eq]
  obtain ⟨e1, he1⟩ :=
    send_log_trace_mono sys.ws p.1 (idleMsg p.2 p.1) fails now s
  obtain ⟨e2, he2⟩ := close_all_trace_mono
    (send_log sys.ws p.1 (idleMsg p.2 p.1) fails now) p.1 "Idle timeout" s
  refine ⟨e1 ++ e2, ?_⟩
  show getTrace (close_all_connections
    (send_log sys.ws p.1 (idleMsg p.2 p.1) fails now) p.1 "Idle timeout") s = _
  rw [he2, he1, List.append_assoc]

theorem processIdle_self (fails : List String) (now : Nat) (sys : Sys)
    (rid : String) (dur : Nat) (s : String)
    (h1 : s ∈ getConns sys.ws rid) (h2 : s ∉ fails) :
    (∃ e1 e2, getTrace (processIdle fails now sys (rid, dur)).ws s =
        getTrace sys.ws s ++ [WEvent.msg (idleMsg dur rid)] ++ e1 ++
          [WEvent.closed "Idle timeout"] ++ e2) ∧
    Assoc.get rid (processIdle fails now sys (rid, dur)).ws.last_activity
      = none ∧
    getConns (processIdle fails now sys (rid, dur)).ws rid = [] ∧
    (∀ rd, Assoc.get rid sys.rm.active_runs = some rd →
      Assoc.get rid (processIdle fails now sys (rid, dur)).rm.active_runs
          = none ∧
      Assoc.get rid (processIdle fails now sys (rid, dur)).rm.completed_runs
          = some { rd with status := .cancelled }) := by
  have hcan : (idleMsg dur rid).isCancel = false := rfl
  refine ⟨?_, ?_, ?_, ?_⟩
  · obtain ⟨e1, he1⟩ :=
      send_log_trace_hit sys.ws rid (idleMsg dur rid) fails now s h1 h2
    rw [hcan] at he1
    have hs1 : s ∈ getConns
        (send_log sys.ws rid (idleMsg dur rid) fails now) rid :=
      send_log_keeps sys.ws rid (idleMsg dur rid) fails now s h1 h2 hcan
    obtain ⟨e2, he2⟩ := close_all_trace_hit
      (send_log sys.ws rid (idleMsg dur rid) fails now) rid "Idle timeout" s hs1
    refine ⟨e1, e2, ?_⟩
    rw [processIdle_eq]
    show getTrace (close_all_connections
      (send_log sys.ws rid (idleMsg dur rid) fails now) rid "Idle timeout") s = _
    rw [he2, he1]
    simp [List.append_assoc]
  · rw [processIdle_eq]
    exact Assoc.get_erase_self rid _
  · rw [processIdle_eq]
    show getConns (close_all_connections
      (send_log sys.ws rid (idleMsg dur rid) fails now) rid "Idle timeout") rid = []
    exact close_all_conns_self _ rid "Idle timeout"
  · intro rd hrd
    rw [processIdle_eq]
    show Assoc.get rid ((sys.rm.cancel_run rid).1).active_runs = none ∧
      Assoc.get rid ((sys.rm.cancel_run rid).1).completed_runs =
        some { rd with status := .cancelled }
    rw [cancel_run_of_some sys.rm rid rd hrd]
    exact ⟨Assoc.get_erase_self rid _, Assoc.get_set_self rid _ _⟩

theorem foldIdle_frame (fails : List String) (now : Nat) {rid : String} :
    ∀ (l : List (String × Nat)) (sys : Sys), (∀ p ∈ l, p.1 ≠ rid) →
    getConns (l.foldl (processIdle fails now) sys).ws rid =
      getConns sys.ws rid ∧
    Assoc.get rid (l.foldl (processIdle fails now) sys).ws.last_activity =
      Assoc.get rid sys.ws.last_activity ∧
    Assoc.get rid (l.foldl (processIdle fails now) sys).rm.active_runs =
      Assoc.get rid sys.rm.active_runs ∧
    Assoc.get rid (l.foldl (processIdle fails now) sys).rm.completed_runs =
      Assoc.get rid sys.rm.completed_runs := by
  intro l
  induction l with
  | nil => intro sys _; exact ⟨rfl, rfl, rfl, rfl⟩
  | cons p l ih =>
    intro sys hk
    have hp : rid ≠ p.1 := (hk p (List.mem_cons_self p l)).symm
    have hf := processIdle_frame fails now sys p hp
    have hi := ih (processIdle fails now sys p)
      (fun q hq => hk q (List.mem_cons_of_mem p hq))
    exact ⟨hi.1.trans hf.1, hi.2.1.trans hf.2.1,
      hi.2.2.1.trans hf.2.2.1, hi.2.2.2.trans hf.2.2.2⟩

theorem foldIdle_trace_mono (fails : List String) (now : Nat) :
    ∀ (l : List (String × Nat)) (sys : Sys) (s : String),
    ∃ ext, getTrace (l.foldl (processIdle fails now) sys).ws s =
      getTrace sys.ws s ++ ext := by
  intro l
  induction l with
  | nil => exact fun sys s => ⟨[], by simp⟩
  | cons p l ih =>
    intro sys s
    obtain ⟨e1, he1⟩ := processIdle_trace_mono fails now sys p s
    obtain ⟨e2, he2⟩ := ih (processIdle fails now sys p) s
    exact ⟨e1 ++ e2, by rw [List.foldl_cons, he2, he1, List.append_assoc]⟩

theorem Assoc.get_split {α : Type} {k : String} {v : α} :
    ∀ {l : List (String × α)}, Assoc.get k l = some v →
    ∃ P Q, l = P ++ (k, v) :: Q ∧ ∀ p ∈ P, p.1 ≠ k := by
  intro l
  induction l with
  | nil => intro h; simp [Assoc.get] at h
  | cons p rest ih =>
    intro h
    by_cases hk : k = p.1
    · subst hk
      have hv : p.2 = v := by
        simpa [Assoc.get] using h
      refine ⟨[], rest, ?_, by simp⟩
      rw [List.nil_append, ← hv]
    · have h' : Assoc.get k rest = some v := by
        simpa [Assoc.get, hk] using h
      obtain ⟨P, Q, hl, hP⟩ := ih h'
      refine ⟨p :: P, Q, by rw [hl]; rfl, ?_⟩
      intro q hq
      cases List.mem_cons.mp hq with
      | inl h1 => exact h1 ▸ fun he => hk he.symm
      | inr h1 => exact hP q h1

theorem nodup_keys_right {α : Type} {P Q : List (String × α)} {k : String}
    {v : α} (h : ((P ++ (k, v) :: Q).map Prod.fst).Nodup) :
    ∀ p ∈ Q, p.1 ≠ k := by
  rw [List.map_append, List.map_cons] at h
  have h2 := (List.nodup_append.mp h).2.1
  have h3 : k ∉ Q.map Prod.fst := (List.nodup_cons.mp h2).1
  intro p hp hk
  exact h3 (hk ▸ List.mem_map_of_mem Prod.fst hp)

/-! ## Claim C6 -/

/-- C6: in every idle-monitor cycle, every tracked run whose idle time
exceeds the timeout and that still has at least one live connection has,
in order, the `idle_timeout` notification delivered to its healthy
connections, the registry cancellation applied (an active run ends up
`Cancelled`), all its connections closed with reason "Idle timeout", and
its activity-clock entry dropped; a run with no live connection is left
untouched in the registry by the cycle. -/
theorem claim_C6 :
    (∀ (timeout now : Nat) (fails : List String) (sys : Sys) (rid : String)
        (last : Nat) (s : String),
      (sys.ws.last_activity.map Prod.fst).Nodup →
      Assoc.get rid sys.ws.last_activity = some last →
      timeout < now - last →
      s ∈ getConns sys.ws rid →
      s ∉ fails →
      (∃ l1 l2 l3, getTrace (monitorCycle timeout fails sys now).ws s =
          l1 ++ [WEvent.msg (idleMsg (now - last) rid)] ++ l2 ++
            [WEvent.closed "Idle timeout"] ++ l3) ∧
      Assoc.get rid (monitorCycle timeout fails sys now).ws.last_activity
        = none ∧
      getConns (monitorCycle timeout fails sys now).ws rid = [] ∧
      (∀ rd, Assoc.get rid sys.rm.active_runs = some rd →
        Assoc.get rid (monitorCycle timeout fails sys now).rm.active_runs
            = none ∧
        Assoc.get rid (monitorCycle timeout fails sys now).rm.completed_runs
            = some { rd with status := .cancelled })) ∧
    (∀ (timeout now : Nat) (fails : List String) (sys : Sys) (rid : String),
      getConns sys.ws rid = [] →
      Assoc.get rid (monitorCycle timeout fails sys now).rm.active_runs =
        Assoc.get rid sys.rm.active_runs ∧
      Assoc.get rid (monitorCycle timeout fails sys now).rm.completed_runs =
        Assoc.get rid sys.rm.completed_runs) := by
  constructor
  · intro timeout now fails sys rid last s hnodup hget hlt hmem hfail
    obtain ⟨P, Q, hl, hP⟩ := Assoc.get_split hget
    have hQ : ∀ p ∈ Q, p.1 ≠ rid := nodup_keys_right (hl ▸ hnodup)
    have hne : (getConns sys.ws rid).isEmpty = false := by
      cases hcs : getConns sys.ws rid with
      | nil => rw [hcs] at hmem; exact absurd hmem (List.not_mem_nil s)
      | cons a l => rfl
    have hsplit : sys.ws.last_activity.filterMap
        (idleProbe timeout now sys.ws) =
        P.filterMap (idleProbe timeout now sys.ws) ++
          (rid, now - last) ::
            Q.filterMap (idleProbe timeout now sys.ws) := by
      rw [hl, List.filterMap_append, List.filterMap_cons,
        idleProbe_hit hlt hne]
    have keysP : ∀ q ∈ P.filterMap (idleProbe timeout now sys.ws),
        q.1 ≠ rid := by
      intro q hq
      obtain ⟨p, hp, hpq⟩ := List.mem_filterMap.mp hq
      have := idleProbe_some hpq
      rw [this.1]
      exact hP p hp
    have keysQ : ∀ q ∈ Q.filterMap (idleProbe timeout now sys.ws),
        q.1 ≠ rid := by
      intro q hq
      obtain ⟨p, hp, hpq⟩ := List.mem_filterMap.mp hq
      have := idleProbe_some hpq
      rw [this.1]
      exact hQ p hp
    have hcycle : monitorCycle timeout fails sys now =
        (Q.filterMap (idleProbe timeout now sys.ws)).foldl
          (processIdle fails now)
          (processIdle fails now
            ((P.filterMap (idleProbe timeout now sys.ws)).foldl
              (processIdle fails now) sys)
            (rid, now - last)) := by
      rw [monitorCycle, hsplit, List.foldl_append, List.foldl_cons]
    have hA := foldIdle_frame fails now
      (P.filterMap (idleProbe timeout now sys.ws)) sys keysP
    have hmemA : s ∈ getConns
        ((P.filterMap (idleProbe timeout now sys.ws)).foldl
          (processIdle fails now) sys).ws rid := by
      rw [hA.1]; exact hmem
    have hSelf := processIdle_self fails now
      ((P.filterMap (idleProbe timeout now sys.ws)).foldl
        (processIdle fails now) sys) rid (now - last) s hmemA hfail
    have hB := foldIdle_frame fails now
      (Q.filterMap (idleProbe timeout now sys.ws))
      (processIdle fails now
        ((P.filterMap (idleProbe timeout now sys.ws)).foldl
          (processIdle fails now) sys) (rid, now - last)) keysQ
    refine ⟨?_, ?_, ?_, ?_⟩
    · obtain ⟨e1, e2, hTr⟩ := hSelf.1
      obtain ⟨eA, hEA⟩ := foldIdle_trace_mono fails now
        (P.filterMap (idleProbe timeout now sys.ws)) sys s
      obtain ⟨eB, hEB⟩ := foldIdle_trace_mono fails now
        (Q.filterMap (idleProbe timeout now sys.ws))
        (processIdle fails now
          ((P.filterMap (idleProbe timeout now sys.ws)).foldl
            (processIdle fails now) sys) (rid, now - last)) s
      refine ⟨getTrace sys.ws s ++ eA, e1, e2 ++ eB, ?_⟩
      rw [hcycle, hEB, hTr, hEA]
      simp [List.append_assoc]
    · rw [hcycle, hB.2.1]
      exact hSelf.2.1
    · rw [hcycle, hB.1]
      exact hSelf.2.2.1
    · intro rd hrd
      have hrdA : Assoc.get rid
          ((P.filterMap (idleProbe timeout now sys.ws)).foldl
            (processIdle fails now) sys).rm.active_runs = some rd := by
        rw [hA.2.2.1]; exact hrd
      have h4 := hSelf.2.2.2 rd hrdA
      constructor
      · rw [hcycle, hB.2.2.1]
        exact h4.1
      · rw [hcycle, hB.2.2.2]
        exact h4.2
  · intro timeout now fails sys rid hconn
    have keys : ∀ q ∈ sys.ws.last_activity.filterMap
        (idleProbe timeout now sys.ws), q.1 ≠ rid := by
      intro q hq
      obtain ⟨p, hp, hpq⟩ := List.mem_filterMap.mp hq
      obtain ⟨hq1, _, hq3⟩ := idleProbe_some hpq
      rw [hq1]
      intro he
      rw [he, hconn] at hq3
      exact absurd hq3 (by simp [List.isEmpty])
    have h := foldIdle_frame fails now
      (sys.ws.last_activity.filterMap (idleProbe timeout now sys.ws)) sys keys
    exact ⟨h.2.2.1, h.2.2.2⟩

/-- Witness for C6: one tracked run "r" (last activity 0, now 100, timeout
10) with the single healthy connection "a"; the cycle delivers the idle
notification then the close to "a", cancels "r" in the registry, and drops
the activity entry. -/
theorem claim_C6_witness :
    (((Sys.mk (RunManager.mk 1 [("r", ⟨.running, 0⟩)] [] [])
        (WebSocketManager.mk [("r", ["a"])] [] [("r", 0)]
          [])).ws.last_activity.map Prod.fst).Nodup ∧
      Assoc.get "r" (Sys.mk (RunManager.mk 1 [("r", ⟨.running, 0⟩)] [] [])
        (WebSocketManager.mk [("r", ["a"])] [] [("r", 0)]
          [])).ws.last_activity = some 0 ∧
      10 < 100 - 0) ∧
    ((∃ l1 l2 l3, getTrace (monitorCycle 10 []
          (Sys.mk (RunManager.mk 1 [("r", ⟨.running, 0⟩)] [] [])
            (WebSocketManager.mk [("r", ["a"])] [] [("r", 0)] [])) 100).ws "a" =
        l1 ++ [WEvent.msg (idleMsg (100 - 0) "r")] ++ l2 ++
          [WEvent.closed "Idle timeout"] ++ l3) ∧
      Assoc.get "r" (monitorCycle 10 []
          (Sys.mk (RunManager.mk 1 [("r", ⟨.running, 0⟩)] [] [])
            (WebSocketManager.mk [("r", ["a"])] [] [("r", 0)] []))
          100).ws.last_activity = none ∧
      getConns (monitorCycle 10 []
          (Sys.mk (RunManager.mk 1 [("r", ⟨.running, 0⟩)] [] [])
            (WebSocketManager.mk [("r", ["a"])] [] [("r", 0)] [])) 100).ws "r"
        = [] ∧
      (∀ rd, Assoc.get "r" (Sys.mk (RunManager.mk 1 [("r", ⟨.running, 0⟩)] [] [])
          (WebSocketManager.mk [("r", ["a"])] [] [("r", 0)] [])).rm.active_runs
            = some rd →
        Assoc.get "r" (monitorCycle 10 []
            (Sys.mk (RunManager.mk 1 [("r", ⟨.running, 0⟩)] [] [])
              (WebSocketManager.mk [("r", ["a"])] [] [("r", 0)] []))
            100).rm.active_runs = none ∧
        Assoc.get "r" (monitorCycle 10 []
            (Sys.mk (RunManager.mk 1 [("r", ⟨.running, 0⟩)] [] [])
              (WebSocketManager.mk [("r", ["a"])] [] [("r", 0)] []))
            100).rm.completed_runs = some { rd with status := .cancelled })) :=
  ⟨⟨by decide, by decide, by decide⟩,
   claim_C6.1 10 100 [] (Sys.mk (RunManager.mk 1 [("r", ⟨.running, 0⟩)] [] [])
      (WebSocketManager.mk [("r", ["a"])] [] [("r", 0)] [])) "r" 0 "a"
     (by decide) (by decide) (by decide) (by decide) (by decide)⟩

end Shepherd
